import Mathlib

/-!
# vk_market: authentication core and ad service

A shallow embedding of the Go packages `util` (token codec, password hasher),
`usecase` (auth service, ad service), `postgres` (user repository) and
`handler` (error dispatch at the HTTP boundary), followed by theorems about
them.

Conventions of the embedding.

* A Go `string` that is an opaque identifier, key or token, or that comes out
  of the URL query (`sort_by`, `sort_order`), is a list of bytes (`Bytes`). A Go `string` that reaches the use cases as decoded JSON text
  (login, password, title, description, image URL) is a Lean `String`:
  `encoding/json` only ever produces valid UTF-8. For such a string `len(s)`
  is `s.utf8ByteSize` and `for _, r := range s` walks `s.data`.
* `time.Now()`, `uuid.New()` and the randomness of bcrypt are explicit
  arguments.
* A Go `(string, error)` result is a pair `Bytes × Option Error`; a Go
  `(*T, error)` result is `Except Error T`.
* Collaborators behind an interface (`UserRepository`, `AdRepository`) are
  records of functions over an abstract store state that is passed explicitly.
-/

namespace VKMarket

/-! ## Bytes -/

abbrev Byte := Fin 256
abbrev Bytes := List Byte

/-- Conversion `byte(n)` of an unsigned integer: the low eight bits. -/
def byte (n : Nat) : Byte := ⟨n % 256, Nat.mod_lt n (by decide)⟩

/-- The bytes of an ASCII literal. -/
def ascii (s : String) : Bytes := s.data.map (fun c => byte c.toNat)

/-! ## errors -/

/-- Go error values that occur in the program. `new` is a value made by
`errors.New` (told apart by its message; all messages in the program differ),
`validationErr` is `&usecase.ValidationErr{Message}`, `wrap msg err` is
`fmt.Errorf(msg + ": %w", err)`, and `driver` is an error coming out of
`database/sql` or the `pq` driver (SQLSTATE code and text). -/
inductive Error where
  | new (msg : String)
  | validationErr (Message : String)
  | wrap (msg : String) (err : Error)
  | driver (code : String) (msg : String)
  deriving DecidableEq, Repr

/-- `errors.Is(err, target)`: some error in the `Unwrap` chain equals `target`. -/
def errorsIs : Error → Error → Bool
  | .wrap msg inner, target =>
    if Error.wrap msg inner = target then true else errorsIs inner target
  | e, target => decide (e = target)

/-- `errors.As(err, &validationErr)` for `*usecase.ValidationErr`: the first
error of that type in the `Unwrap` chain, by its message. -/
def errorsAsValidationErr : Error → Option String
  | .validationErr m => some m
  | .wrap _ inner => errorsAsValidationErr inner
  | _ => none

/-! ## crypto/sha256 and crypto/hmac (Go standard library) -/

/-- The largest `r` below `2 ^ bits` with `r ^ k ≤ n`, found bit by bit from
the top, starting from `r`. -/
def irootAux (k n : Nat) : Nat → Nat → Nat
  | 0, r => r
  | b + 1, r => if (r + 2 ^ b) ^ k ≤ n then irootAux k n b (r + 2 ^ b) else irootAux k n b r

/-- The integer part of the `k`-th root of `n`, for roots below `2 ^ 40`. -/
def iroot (k n : Nat) : Nat := irootAux k n 40 0

/-- The first sixty-four prime numbers. -/
def sha256Primes : List Nat :=
  [2, 3, 5, 7, 11, 13, 17, 19, 23, 29, 31, 37, 41, 43, 47, 53, 59, 61, 67, 71, 73, 79, 83, 89,
   97, 101, 103, 107, 109, 113, 127, 131, 137, 139, 149, 151, 157, 163, 167, 173, 179, 181, 191,
   193, 197, 199, 211, 223, 227, 229, 233, 239, 241, 251, 257, 263, 269, 271, 277, 281, 283,
   293, 307, 311]

/-- The round constants `_K`: the first 32 bits of the fractional parts of the
cube roots of the first 64 primes (FIPS 180-4, 4.2.2). -/
def sha256K : List Nat := sha256Primes.map (fun p => iroot 3 (p * 2 ^ 96) % 2 ^ 32)

/-- The initial chaining value: the first 32 bits of the fractional parts of
the square roots of the first 8 primes (FIPS 180-4, 5.3.3). -/
def sha256Init : List Nat :=
  (sha256Primes.take 8).map (fun p => iroot 2 (p * 2 ^ 64) % 2 ^ 32)

/-- Rotate a 32-bit word right. -/
def rotr32 (x n : Nat) : Nat := ((x >>> n) ||| (x <<< (32 - n))) % 2 ^ 32

def bsig0 (x : Nat) : Nat := rotr32 x 2 ^^^ rotr32 x 13 ^^^ rotr32 x 22
def bsig1 (x : Nat) : Nat := rotr32 x 6 ^^^ rotr32 x 11 ^^^ rotr32 x 25
def ssig0 (x : Nat) : Nat := rotr32 x 7 ^^^ rotr32 x 18 ^^^ (x >>> 3)
def ssig1 (x : Nat) : Nat := rotr32 x 17 ^^^ rotr32 x 19 ^^^ (x >>> 10)
def ch (x y z : Nat) : Nat := (x &&& y) ^^^ ((x ^^^ (2 ^ 32 - 1)) &&& z)
def maj (x y z : Nat) : Nat := (x &&& y) ^^^ (x &&& z) ^^^ (y &&& z)

/-- Message schedule, kept most recent word first: `n` more words are added. -/
def sha256Extend : Nat → List Nat → List Nat
  | 0, r => r
  | n + 1, r =>
    sha256Extend n
      (((ssig1 (r.getD 1 0) + r.getD 6 0 + ssig0 (r.getD 14 0) + r.getD 15 0) % 2 ^ 32) :: r)

/-- One round of the compression function on the eight working words. -/
def sha256Round (s : List Nat) (kw : Nat × Nat) : List Nat :=
  match s with
  | [a, b, c, d, e, f, g, h] =>
    let t1 := (h + bsig1 e + ch e f g + kw.1 + kw.2) % 2 ^ 32
    let t2 := (bsig0 a + maj a b c) % 2 ^ 32
    [(t1 + t2) % 2 ^ 32, a, b, c, (d + t1) % 2 ^ 32, e, f, g]
  | _ => s

/-- Big-endian value of a byte string. -/
def beNat (bs : Bytes) : Nat := bs.foldl (fun acc b => acc * 256 + b.val) 0

def sha256Words (block : Bytes) : List Nat :=
  (List.range 16).map (fun j => beNat ((block.drop (4 * j)).take 4))

/-- Compression of one 64-byte block into the chaining value. -/
def sha256Block (s : List Nat) (block : Bytes) : List Nat :=
  let w := (sha256Extend 48 (sha256Words block).reverse).reverse
  List.zipWith (fun x y => (x + y) % 2 ^ 32) s ((sha256K.zip w).foldl sha256Round s)

/-- Padding: a `0x80` byte, zeros up to 56 mod 64, the bit length on 8 bytes. -/
def sha256Pad (msg : Bytes) : Bytes :=
  msg ++ [byte 0x80] ++ List.replicate ((64 - (msg.length + 9) % 64) % 64) (byte 0)
    ++ (List.range 8).reverse.map (fun i => byte (8 * msg.length / 256 ^ i))

/-- SHA-256 (FIPS 180-4), as `sha256.Sum256`. -/
def sha256 (msg : Bytes) : Bytes :=
  let p := sha256Pad msg
  let s := (List.range (p.length / 64)).foldl
    (fun s i => sha256Block s ((p.drop (64 * i)).take 64)) sha256Init
  s.flatMap (fun w => [byte (w / 2 ^ 24), byte (w / 2 ^ 16), byte (w / 2 ^ 8), byte w])

/-- The key block of `hmac.New(sha256.New, key)`: a key longer than the block
size of 64 is hashed first, then the key is copied into a zeroed block. -/
def hmacKeyBlock (key : Bytes) : Bytes :=
  let k := if key.length > 64 then sha256 key else key
  k ++ List.replicate (64 - k.length) (byte 0)

/-- The tag `h.Sum(nil)` of `h := hmac.New(sha256.New, key); h.Write(msg)`. -/
def hmacSHA256 (key msg : Bytes) : Bytes :=
  let ipad := (hmacKeyBlock key).map (fun b => byte (b.val ^^^ 0x36))
  let opad := (hmacKeyBlock key).map (fun b => byte (b.val ^^^ 0x5c))
  sha256 (opad ++ sha256 (ipad ++ msg))

/-- `hmac.Equal`: constant-time comparison, true exactly on equal strings. -/
def hmacEqual (a b : Bytes) : Bool := decide (a = b)

/-! ## encoding/base64, `base64.URLEncoding` (Go standard library) -/

/-- The URL alphabet `encodeURL`. -/
def encodeURL : Bytes :=
  ascii "ABCDEFGHIJKLMNOPQRSTUVWXYZabcdefghijklmnopqrstuvwxyz0123456789-_"

/-- Entry `enc.encode[i]`. -/
def b64Char (i : Nat) : Byte := encodeURL.getD i (byte 0)

/-- Entry `enc.decodeMap[c]`; `none` stands for `0xff`. -/
def b64Value (c : Byte) : Option Nat :=
  if encodeURL.indexOf c < 64 then some (encodeURL.indexOf c) else none

/-- The padding character `=`. -/
def padChar : Byte := byte 61

/-- `base64.URLEncoding.EncodeToString`. -/
def base64Encode : Bytes → Bytes
  | a :: b :: c :: rest =>
    let v := a.val * 65536 + b.val * 256 + c.val
    b64Char (v / 262144 % 64) :: b64Char (v / 4096 % 64) :: b64Char (v / 64 % 64)
      :: b64Char (v % 64) :: base64Encode rest
  | [a, b] =>
    let v := a.val * 65536 + b.val * 256
    [b64Char (v / 262144 % 64), b64Char (v / 4096 % 64), b64Char (v / 64 % 64), padChar]
  | [a] =>
    let v := a.val * 65536
    [b64Char (v / 262144 % 64), b64Char (v / 4096 % 64), padChar, padChar]
  | [] => []

def isNewline (c : Byte) : Bool := c = byte 10 || c = byte 13

/-- The bytes of a quantum of `dlen` six-bit values (`dlen - 1` bytes). -/
def quantumBytes (d : List Nat) : Bytes :=
  let v := d.getD 0 0 * 262144 + d.getD 1 0 * 4096 + d.getD 2 0 * 64 + d.getD 3 0
  ([byte (v / 65536), byte (v / 256), byte v] : Bytes).take (d.length - 1)

/-- The loop of `Encoding.Decode` with `decodeQuantum` inlined; `buf` holds the
six-bit values read so far in the current quantum. Newlines are skipped,
padding ends the input, trailing bits are not checked (not strict mode);
`none` is a `CorruptInputError`. -/
def base64DecodeAux : Bytes → List Nat → Option Bytes
  | [], buf => if buf.length = 0 then some [] else none
  | c :: rest, buf =>
    match b64Value c with
    | some v =>
      if buf.length = 3 then
        (base64DecodeAux rest []).map (fun tl => quantumBytes (buf ++ [v]) ++ tl)
      else base64DecodeAux rest (buf ++ [v])
    | none =>
      if isNewline c then base64DecodeAux rest buf
      else if c ≠ padChar then none
      else if buf.length < 2 then none
      else if buf.length = 2 then
        match rest.dropWhile isNewline with
        | [] => none
        | p :: rest2 =>
          if p ≠ padChar then none
          else if (rest2.dropWhile isNewline).length = 0 then some (quantumBytes buf)
          else none
      else if (rest.dropWhile isNewline).length = 0 then some (quantumBytes buf)
      else none

/-- `base64.URLEncoding.DecodeString`; `none` when it returns an error. -/
def base64Decode (s : Bytes) : Option Bytes := base64DecodeAux s []

/-! ## strconv, fmt, strings (Go standard library) -/

/-- The digit loop of `strconv.formatBits` in base 10: while `n >= 10` the
last digit is put in front of `acc`; `fuel` bounds the number of turns. -/
def formatNatAux : Nat → Nat → Bytes → Bytes
  | 0, _, acc => acc
  | fuel + 1, n, acc =>
    if n < 10 then byte (48 + n) :: acc
    else formatNatAux fuel (n / 10) (byte (48 + n % 10) :: acc)

/-- Decimal digits of a natural number, as `%d` prints them. -/
def formatNat (n : Nat) : Bytes := formatNatAux (n + 1) n []

/-- The verb `%d` on an `int64`. -/
def formatInt (n : Int) : Bytes :=
  if n < 0 then byte 45 :: formatNat n.natAbs else formatNat n.toNat

/-- The digit loop of `strconv.ParseUint(s, 10, 64)` on a non-empty string,
without the bound (checked by `ParseInt`); `none` is a syntax error. -/
def parseDigits : Bytes → Nat → Option Nat
  | [], acc => some acc
  | c :: rest, acc =>
    if 48 ≤ c.val ∧ c.val ≤ 57 then parseDigits rest (acc * 10 + (c.val - 48)) else none

/-- `strconv.ParseInt(s, 10, 64)`; `none` when it returns an error (syntax or
range). -/
def ParseInt (s : Bytes) : Option Int :=
  match s with
  | [] => none
  | c :: rest =>
    let neg := decide (c = byte 45)
    let body := if c = byte 43 ∨ c = byte 45 then rest else s
    if body.length = 0 then none
    else
      match parseDigits body 0 with
      | none => none
      | some un =>
        if !neg && decide (un ≥ 2 ^ 63) then none
        else if neg && decide (un > 2 ^ 63) then none
        else some (if neg then -(un : Int) else (un : Int))

/-- `strings.Split(s, ".")`. -/
def splitDot : Bytes → List Bytes
  | [] => [[]]
  | c :: rest =>
    if c = byte 46 then [] :: splitDot rest
    else
      match splitDot rest with
      | [] => [[c]]
      | p :: ps => (c :: p) :: ps

/-! ## time -/

/-- `time.Duration`: a signed 64-bit count of nanoseconds. -/
structure Duration where
  ns : Int
  inRange : -9223372036854775808 ≤ ns ∧ ns < 9223372036854775808

/-- A reading of the wall clock by `time.Now()`, as nanoseconds since the Unix
epoch (the range of `UnixNano`, years 1678 to 2262). -/
structure Time where
  unixNano : Int
  inRange : -9223372036854775808 ≤ unixNano ∧ unixNano < 9223372036854775808

/-- `t.Unix()`: whole seconds since the epoch, rounded down. -/
def Time.Unix (t : Time) : Int := t.unixNano / 1000000000

/-- `t.Add(d).Unix()`. -/
def Time.AddUnix (t : Time) (d : Duration) : Int := (t.unixNano + d.ns) / 1000000000

namespace util

/-! ## package util: token.go -/

def ErrInvalidToken : Error := Error.new "неверный или истекший токен"

/-- The string `fmt.Sprintf("%s.%d", userID, expiresAt)`. -/
def dataToSign (userID : Bytes) (expiresAt : Int) : Bytes :=
  userID ++ [byte 46] ++ formatInt expiresAt

/-- The signature both functions compute: the HMAC-SHA256 tag of the data to
sign, in URL base64. -/
def signature (secretKey : Bytes) (userID : Bytes) (expiresAt : Int) : Bytes :=
  base64Encode (hmacSHA256 secretKey (dataToSign userID expiresAt))

/-- The string `fmt.Sprintf("%s.%d.%s", userID, expiresAt, signature)`. -/
def tokenText (userID : Bytes) (expiresAt : Int) (sig : Bytes) : Bytes :=
  userID ++ [byte 46] ++ formatInt expiresAt ++ [byte 46] ++ sig

/-- `GenerateToken`, with the clock reading `now`. -/
def GenerateToken (now : Time) (userID secretKey : Bytes) (expiration : Duration) :
    Bytes × Option Error :=
  let expiresAt := now.AddUnix expiration
  let sig := signature secretKey userID expiresAt
  let token := tokenText userID expiresAt sig
  (base64Encode token, none)

/-- `ParseToken`, with the clock reading `now`. -/
def ParseToken (now : Time) (tokenString secretKey : Bytes) : Bytes × Option Error :=
  match base64Decode tokenString with
  | none => ([], some ErrInvalidToken)
  | some decodedToken =>
    match splitDot decodedToken with
    | [userID, expiresAtStr, receivedSignature] =>
      match ParseInt expiresAtStr with
      | none => ([], some ErrInvalidToken)
      | some expiresAt =>
        if now.Unix > expiresAt then ([], some ErrInvalidToken)
        else if !hmacEqual receivedSignature (signature secretKey userID expiresAt) then
          ([], some ErrInvalidToken)
        else (userID, none)
    | _ => ([], some ErrInvalidToken)

end util

/-! ## golang.org/x/crypto/bcrypt (external library, taken as a parameter) -/

/-- The two functions of the bcrypt package the program calls. `rand` is the
randomness `GenerateFromPassword` draws for the salt. `CompareHashAndPassword`
returns `none` for `nil`. -/
structure Bcrypt where
  GenerateFromPassword : (rand : Bytes) → (password : String) → (cost : Nat) → Except Error String
  CompareHashAndPassword : (hashedPassword password : String) → Option Error

/-- The constant `bcrypt.DefaultCost`. -/
def bcryptDefaultCost : Nat := 10

/-- The error `bcrypt.ErrPasswordTooLong`. -/
def ErrPasswordTooLong : Error := Error.new "bcrypt: password length exceeds 72 bytes"

/-- The length check at the head of `bcrypt.GenerateFromPassword` (in
golang.org/x/crypto from v0.5.0 on): a password longer than 72 bytes is
refused with `ErrPasswordTooLong`. What the library does after the check is
the parameter `inner`. -/
def bcryptWithLengthCheck (inner : Bcrypt) : Bcrypt where
  GenerateFromPassword := fun rand password cost =>
    if password.utf8ByteSize > 72 then .error ErrPasswordTooLong
    else inner.GenerateFromPassword rand password cost
  CompareHashAndPassword := inner.CompareHashAndPassword

namespace util

/-! ## package util: password.go -/

/-- `HashPassword`: `string(bytes), err`, where `bytes` is nil on an error. -/
def HashPassword (bc : Bcrypt) (rand : Bytes) (password : String) : String × Option Error :=
  match bc.GenerateFromPassword rand password bcryptDefaultCost with
  | .ok bytes => (bytes, none)
  | .error err => ("", some err)

/-- `CheckPasswordHash`: `err == nil`. -/
def CheckPasswordHash (bc : Bcrypt) (password hash : String) : Bool :=
  (bc.CompareHashAndPassword hash password).isNone

end util

/-! ## float64 -/

/-- A `float64` value, as far as comparisons see it: a finite value (a
rational; the two zeros are not told apart), an infinity, or NaN. -/
inductive Float64 where
  | finite (q : ℚ)
  | posInf
  | negInf
  | nan
  deriving DecidableEq

/-- The comparison `x <= y`; false when either side is NaN. -/
def Float64.le : Float64 → Float64 → Bool
  | .nan, _ => false
  | _, .nan => false
  | .negInf, _ => true
  | _, .posInf => true
  | .finite a, .finite b => decide (a ≤ b)
  | .posInf, _ => false
  | .finite _, .negInf => false

/-- The comparison `x < y`; false when either side is NaN. -/
def Float64.lt : Float64 → Float64 → Bool
  | .nan, _ => false
  | _, .nan => false
  | .finite a, .finite b => decide (a < b)
  | .negInf, .negInf => false
  | .negInf, _ => true
  | .posInf, _ => false
  | .finite _, .posInf => true
  | .finite _, .negInf => false

/-! ## package domain -/

namespace domain

structure User where
  ID : Bytes
  Login : String
  PasswordHash : String
  CreatedAt : Time

structure Ad where
  ID : Bytes
  UserID : Bytes
  Title : String
  Description : String
  ImageURL : String
  Price : Float64
  CreatedAt : Time

end domain

/-! ## package repository -/

namespace repository

/-- The interface `UserRepository`, over store states `σ`. An `error` result
is `none` for `nil`; a `*domain.User` result is `none` for `nil`. -/
structure UserRepository (σ : Type) where
  CreateUser : σ → domain.User → Option Error × σ
  GetUserByLogin : σ → String → Except Error (Option domain.User)
  GetUserByID : σ → Bytes → Except Error (Option domain.User)

/-- The interface `AdRepository`, over store states `σ`. -/
structure AdRepository (σ : Type) where
  CreateAd : σ → domain.Ad → Option Error × σ
  GetAdByID : σ → Bytes → Except Error (Option domain.Ad)
  ListAds : σ → (offset limit : Int) → (sortBy sortOrder : Bytes) →
    (minPrice maxPrice : Float64) → Except Error (List domain.Ad)
  CountAds : σ → (minPrice maxPrice : Float64) → Except Error Int

end repository

namespace usecase

/-! ## package usecase: auth.go -/

def ErrUserAlreadyExists : Error := Error.new "пользователь с таким логином уже существует"
def ErrInvalidCredentials : Error := Error.new "неверные учетные данные"

structure AuthUseCase (σ : Type) where
  userRepo : repository.UserRepository σ
  tokenSecretKey : Bytes
  tokenExpiration : Duration

/-- The rune comparison `r >= lo && r <= hi`, on code points. -/
def runeIn (lo hi r : Char) : Bool := decide (lo.toNat ≤ r.toNat) && decide (r.toNat ≤ hi.toNat)

/-- `isValidLogin`: every rune is an ASCII letter, a digit, `_` or `-`. -/
def isValidLogin (login : String) : Bool :=
  login.data.all (fun r =>
    runeIn 'a' 'z' r || runeIn 'A' 'Z' r || runeIn '0' '9' r || r = '_' || r = '-')

/-- The set of special characters searched by `strings.ContainsRune`. -/
def specialChars : String := "!@#$%^&*()_+-=[]\x7b\x7d|;\x27:\",.<>/?\x60~"

/-- The four flags of `isValidPassword`. -/
structure PasswordFlags where
  hasUpper : Bool
  hasLower : Bool
  hasDigit : Bool
  hasSpecial : Bool

/-- The `switch` in the loop body of `isValidPassword`. -/
def passwordStep (f : PasswordFlags) (r : Char) : PasswordFlags :=
  if runeIn 'A' 'Z' r then { f with hasUpper := true }
  else if runeIn 'a' 'z' r then { f with hasLower := true }
  else if runeIn '0' '9' r then { f with hasDigit := true }
  else if specialChars.data.contains r then { f with hasSpecial := true }
  else f

/-- `isValidPassword`. -/
def isValidPassword (password : String) : Bool :=
  let f := password.data.foldl passwordStep ⟨false, false, false, false⟩
  f.hasUpper && f.hasLower && f.hasDigit && f.hasSpecial

def msgLoginLength : String := "логин должен быть от 3 до 50 символов"
def msgLoginChars : String :=
  "логин может содержать только буквы, цифры, подчеркивания и дефисы"
def msgPasswordLength : String := "пароль должен быть от 8 до 100 символов"
def msgPasswordComposition : String :=
  "пароль должен содержать хотя бы одну заглавную букву, одну строчную букву, одну цифру и один специальный символ"

/-- `AuthUseCase.RegisterUser`, from store state `s`; `rand` is the randomness
bcrypt draws, `newID` the string of `uuid.New()`, `now` the clock. -/
def AuthUseCase.RegisterUser {σ : Type} (uc : AuthUseCase σ) (bc : Bcrypt) (rand newID : Bytes)
    (now : Time) (s : σ) (login password : String) : Except Error domain.User × σ :=
  if login.utf8ByteSize < 3 ∨ login.utf8ByteSize > 50 then
    (.error (.validationErr msgLoginLength), s)
  else if !isValidLogin login then
    (.error (.validationErr msgLoginChars), s)
  else if password.utf8ByteSize < 8 ∨ password.utf8ByteSize > 100 then
    (.error (.validationErr msgPasswordLength), s)
  else if !isValidPassword password then
    (.error (.validationErr msgPasswordComposition), s)
  else
    match uc.userRepo.GetUserByLogin s login with
    | .error err => (.error (.wrap "не удалось проверить существующего пользователя" err), s)
    | .ok (some _) => (.error ErrUserAlreadyExists, s)
    | .ok none =>
      match util.HashPassword bc rand password with
      | (_, some err) => (.error (.wrap "не удалось хешировать пароль" err), s)
      | (hashedPassword, none) =>
        let newUser : domain.User :=
          { ID := newID, Login := login, PasswordHash := hashedPassword, CreatedAt := now }
        match uc.userRepo.CreateUser s newUser with
        | (some err, s2) => (.error (.wrap "не удалось создать пользователя" err), s2)
        | (none, s2) => (.ok newUser, s2)

/-- `AuthUseCase.AuthenticateUser`, on store state `s` with the clock at `now`. -/
def AuthUseCase.AuthenticateUser {σ : Type} (uc : AuthUseCase σ) (bc : Bcrypt) (now : Time)
    (s : σ) (login password : String) : Bytes × Option Error :=
  match uc.userRepo.GetUserByLogin s login with
  | .error err => ([], some (.wrap "не удалось получить пользователя по логину" err))
  | .ok none => ([], some ErrInvalidCredentials)
  | .ok (some user) =>
    if !util.CheckPasswordHash bc password user.PasswordHash then
      ([], some ErrInvalidCredentials)
    else
      match util.GenerateToken now user.ID uc.tokenSecretKey uc.tokenExpiration with
      | (_, some err) => ([], some (.wrap "не удалось сгенерировать токен" err))
      | (token, none) => (token, none)

/-! ## package usecase: ad.go -/

structure AdUseCase (σ : Type) where
  adRepo : repository.AdRepository σ

/-- `AdUseCase.CreateAd`, from store state `s`; `newID` is the string of
`uuid.New()`, `now` the clock. -/
def AdUseCase.CreateAd {σ : Type} (uc : AdUseCase σ) (newID : Bytes) (now : Time) (s : σ)
    (userID : Bytes) (title description imageURL : String) (price : Float64) :
    Except Error domain.Ad × σ :=
  if title = "" ∨ price.le (.finite 0) = true then
    (.error (.new "title cannot be empty and price must be greater than 0"), s)
  else if title.utf8ByteSize > 255 then
    (.error (.new "title is too long"), s)
  else if description.utf8ByteSize > 1000 then
    (.error (.new "description is too long"), s)
  else
    let newAd : domain.Ad :=
      { ID := newID, UserID := userID, Title := title, Description := description,
        ImageURL := imageURL, Price := price, CreatedAt := now }
    match uc.adRepo.CreateAd s newAd with
    | (some err, s2) => (.error (.wrap "failed to create ad" err), s2)
    | (none, s2) => (.ok newAd, s2)

end usecase

namespace postgres

/-! ## package postgres: user_pg_repository.go -/

/-- `PGUserRepository.CreateUser`; `exec` is `r.db.Exec` on the `INSERT`
statement with the four columns of the user. -/
def PGUserRepository.CreateUser {σ : Type} (exec : σ → domain.User → Option Error × σ)
    (s : σ) (user : domain.User) : Option Error × σ :=
  match exec s user with
  | (some err, s2) => (some (.wrap "failed to create user in postgres" err), s2)
  | (none, s2) => (none, s2)

/-- `PGUserRepository.GetUserByLogin`; `queryRow` is `r.db.QueryRow(..).Scan`
on the `SELECT ... WHERE login = $1`, with `.ok none` for `sql.ErrNoRows`. -/
def PGUserRepository.GetUserByLogin {σ : Type}
    (queryRow : σ → String → Except Error (Option domain.User))
    (s : σ) (login : String) : Except Error (Option domain.User) :=
  match queryRow s login with
  | .ok none => .ok none
  | .error err => .error (.wrap "failed to get user by login from postgres" err)
  | .ok (some user) => .ok (some user)

/-- `PGUserRepository.GetUserByID`. -/
def PGUserRepository.GetUserByID {σ : Type}
    (queryRow : σ → Bytes → Except Error (Option domain.User))
    (s : σ) (id : Bytes) : Except Error (Option domain.User) :=
  match queryRow s id with
  | .ok none => .ok none
  | .error err => .error (.wrap "failed to get user by ID from postgres" err)
  | .ok (some user) => .ok (some user)

/-- Modelled from the spec: the `users` table, whose schema is not in the
repository. "Login uniqueness enforced by the store": an `INSERT` of a login
already present fails with the driver error for a unique violation (SQLSTATE
23505) and leaves the table as it was; any other `INSERT` appends the row. -/
def usersInsert (tbl : List domain.User) (u : domain.User) : Option Error × List domain.User :=
  if tbl.any (fun x => x.Login = u.Login) then
    (some (.driver "23505" "duplicate key value violates unique constraint"), tbl)
  else (none, tbl ++ [u])

/-- Modelled from the spec: `SELECT ... FROM users WHERE login = $1` on the
table, `getUserByLogin(login) -> User|absent`. -/
def usersByLogin (tbl : List domain.User) (login : String) : Except Error (Option domain.User) :=
  .ok (tbl.find? (fun x => x.Login = login))

/-- Modelled from the spec: `SELECT ... FROM users WHERE id = $1`. -/
def usersByID (tbl : List domain.User) (id : Bytes) : Except Error (Option domain.User) :=
  .ok (tbl.find? (fun x => x.ID = id))

/-- The repository `NewPGUserRepository(db)` over the table. -/
def NewPGUserRepository : repository.UserRepository (List domain.User) where
  CreateUser := PGUserRepository.CreateUser usersInsert
  GetUserByLogin := PGUserRepository.GetUserByLogin usersByLogin
  GetUserByID := PGUserRepository.GetUserByID usersByID

/-- The same repository seen by one request while other requests run: the
state is the committed table together with the rows that concurrent requests
commit after this request's `SELECT` and before its `INSERT`. -/
def racingUserRepository : repository.UserRepository (List domain.User × List domain.User) where
  CreateUser := PGUserRepository.CreateUser (fun s u =>
    ((usersInsert (s.1 ++ s.2) u).1, ((usersInsert (s.1 ++ s.2) u).2, [])))
  GetUserByLogin := PGUserRepository.GetUserByLogin (fun s login => usersByLogin s.1 login)
  GetUserByID := PGUserRepository.GetUserByID (fun s id => usersByID s.1 id)

end postgres

namespace handler

/-! ## package handler: dispatch on the use case's error -/

/-- The status `AuthHandler.RegisterUser` writes for the result of
`authUseCase.RegisterUser`. -/
def RegisterUserStatus (r : Except Error domain.User) : Nat :=
  match r with
  | .error err =>
    if (errorsAsValidationErr err).isSome then 400
    else if errorsIs err usecase.ErrUserAlreadyExists then 409
    else 500
  | .ok _ => 201

/-- The status `AuthHandler.LoginUser` writes for the result of
`authUseCase.AuthenticateUser`. -/
def LoginUserStatus (r : Bytes × Option Error) : Nat :=
  match r.2 with
  | some err => if errorsIs err usecase.ErrInvalidCredentials then 401 else 500
  | none => 200

/-- The status `AdHandler.CreateAd` writes for the result of
`adUseCase.CreateAd`. -/
def CreateAdStatus (r : Except Error domain.Ad) : Nat :=
  match r with
  | .error err => if (errorsAsValidationErr err).isSome then 400 else 500
  | .ok _ => 201

end handler

/-! ## Sample values -/

/-- The instant 2023-11-14 22:13:20 UTC. -/
def sampleNow : Time := ⟨1700000000000000000, by decide⟩

/-- One and a half seconds after `sampleNow`. -/
def sampleNowPlus1500ms : Time := ⟨1700000001500000000, by decide⟩

/-- Two seconds after `sampleNow`. -/
def sampleNowPlus2s : Time := ⟨1700000002000000000, by decide⟩

/-- `time.Second`. -/
def oneSecond : Duration := ⟨1000000000, by decide⟩

/-- `24 * time.Hour`, the expiration set in `main`. -/
def oneDay : Duration := ⟨86400000000000, by decide⟩

/-- A stand-in for the bcrypt library, used only to instantiate theorems at
concrete inputs: the hash is the salt text followed by the password, and a
password matches a hash that ends with it. It has none of bcrypt's strength. -/
def sampleBcrypt : Bcrypt where
  GenerateFromPassword := fun rand password _ =>
    .ok (String.mk (rand.map (fun b => Char.ofNat b.val)) ++ "$" ++ password)
  CompareHashAndPassword := fun hashedPassword password =>
    if password.data.isSuffixOf hashedPassword.data then none
    else some (.new "crypto/bcrypt: hashedPassword is not the hash of the given password")

/-- A password of 73 bytes that satisfies rules 3 and 4. -/
def samplePassword73 : String :=
  "Abcdef1!aaaaaaaaaaaaaaaaaaaaaaaaaaaaaaaaaaaaaaaaaaaaaaaaaaaaaaaaaaaaaaaaa"

/-- An auth use case over the Postgres repository, with key `secret`. -/
def sampleAuth : usecase.AuthUseCase (List domain.User) :=
  { userRepo := postgres.NewPGUserRepository, tokenSecretKey := ascii "secret",
    tokenExpiration := oneDay }

/-- An auth use case over the repository with concurrent requests. -/
def sampleRacingAuth : usecase.AuthUseCase (List domain.User × List domain.User) :=
  { userRepo := postgres.racingUserRepository, tokenSecretKey := ascii "secret",
    tokenExpiration := oneDay }

/-- An ad repository that records the ads it is given. -/
def sampleAdRepository : repository.AdRepository (List domain.Ad) where
  CreateAd := fun s ad => (none, s ++ [ad])
  GetAdByID := fun s id => .ok (s.find? (fun a => a.ID = id))
  ListAds := fun s _ _ _ _ _ _ => .ok s
  CountAds := fun s _ _ => .ok s.length

def sampleAds : usecase.AdUseCase (List domain.Ad) := { adRepo := sampleAdRepository }

/-! ## The registration rules, as the specification words them -/

namespace rules

def isUpper (c : Char) : Prop := 'A'.toNat ≤ c.toNat ∧ c.toNat ≤ 'Z'.toNat
def isLower (c : Char) : Prop := 'a'.toNat ≤ c.toNat ∧ c.toNat ≤ 'z'.toNat
def isDigit (c : Char) : Prop := '0'.toNat ≤ c.toNat ∧ c.toNat ≤ '9'.toNat

/-- Rule 1: login length 3 to 50, the length being `len(login)`. -/
def loginLength (login : String) : Prop :=
  3 ≤ login.utf8ByteSize ∧ login.utf8ByteSize ≤ 50

/-- Rule 2: the login holds only letters, digits, `_` and `-`. -/
def loginChars (login : String) : Prop :=
  ∀ c ∈ login.data, isLower c ∨ isUpper c ∨ isDigit c ∨ c = '_' ∨ c = '-'

/-- Rule 3: password length 8 to 100, the length being `len(password)`. -/
def passwordLength (password : String) : Prop :=
  8 ≤ password.utf8ByteSize ∧ password.utf8ByteSize ≤ 100

/-- Rule 4: at least one uppercase letter, one lowercase letter, one digit and
one character of the special set. -/
def passwordComposition (password : String) : Prop :=
  (∃ c ∈ password.data, isUpper c) ∧ (∃ c ∈ password.data, isLower c) ∧
    (∃ c ∈ password.data, isDigit c) ∧ (∃ c ∈ password.data, c ∈ usecase.specialChars.data)

/-- A (login, password) pair that satisfies the four rules. -/
def valid (login password : String) : Prop :=
  loginLength login ∧ loginChars login ∧ passwordLength password ∧ passwordComposition password

instance (c : Char) : Decidable (isUpper c) := by unfold isUpper; exact inferInstance
instance (c : Char) : Decidable (isLower c) := by unfold isLower; exact inferInstance
instance (c : Char) : Decidable (isDigit c) := by unfold isDigit; exact inferInstance
instance (login : String) : Decidable (loginLength login) := by
  unfold loginLength; exact inferInstance
instance (login : String) : Decidable (loginChars login) := by
  unfold loginChars; exact inferInstance
instance (password : String) : Decidable (passwordLength password) := by
  unfold passwordLength; exact inferInstance
instance (password : String) : Decidable (passwordComposition password) := by
  unfold passwordComposition; exact inferInstance
instance (login password : String) : Decidable (valid login password) := by
  unfold valid; exact inferInstance

end rules

/-! ## int, strings.ToUpper, strings.Join -/

/-- The Go `int` value of an arithmetic result on a 64-bit platform: the
result wrapped to 64-bit two's complement. -/
def wrapInt (x : Int) : Int :=
  (x + 9223372036854775808) % 18446744073709551616 - 9223372036854775808

/-- The ASCII branch of `unicode.ToUpper`. -/
def asciiUpper (c : Byte) : Byte := if 97 ≤ c.val ∧ c.val ≤ 122 then byte (c.val - 32) else c

/-- `strings.ToUpper`: a string of ASCII bytes only has its letters `a` to `z`
replaced; any other string goes through `strings.Map(unicode.ToUpper, s)`,
which needs the case tables of package unicode and is the parameter
`mapUpper`. -/
def ToUpper (mapUpper : Bytes → Bytes) (s : Bytes) : Bytes :=
  if s.all (fun c => decide (c.val < 128)) then s.map asciiUpper else mapUpper s

/-- The text of an ASCII byte string. -/
def text (b : Bytes) : String := String.mk (b.map (fun x => Char.ofNat x.val))

/-- `strings.Join(elems, sep)`. -/
def Join : List String → String → String
  | [], _ => ""
  | [a], _ => a
  | a :: b :: rest, sep => a ++ sep ++ Join (b :: rest) sep

namespace usecase

/-! ## package usecase: ad.go, ListAds -/

structure ListAdsParameters where
  Page : Int
  Limit : Int
  SortBy : Bytes
  SortOrder : Bytes
  MinPrice : Float64
  MaxPrice : Float64

/-- The page number after `if params.Page < 1 { params.Page = 1 }`. -/
def ListAdsParameters.page (params : ListAdsParameters) : Int :=
  if params.Page < 1 then 1 else params.Page

/-- The limit after `if params.Limit < 1 || params.Limit > 100 { params.Limit = 10 }`. -/
def ListAdsParameters.limit (params : ListAdsParameters) : Int :=
  if params.Limit < 1 ∨ params.Limit > 100 then 10 else params.Limit

/-- The value of `offset := (params.Page - 1) * params.Limit`, in `int`
arithmetic, after the two normalisations. -/
def ListAdsParameters.offset (params : ListAdsParameters) : Int :=
  wrapInt (wrapInt (params.page - 1) * params.limit)

/-- `AdUseCase.ListAds` on store state `s`; the result is `(ads, totalCount)`
or the error. -/
def AdUseCase.ListAds {σ : Type} (uc : AdUseCase σ) (s : σ) (params : ListAdsParameters) :
    Except Error (List domain.Ad × Int) :=
  match uc.adRepo.ListAds s params.offset params.limit params.SortBy params.SortOrder
      params.MinPrice params.MaxPrice with
  | .error err => .error (.wrap "failed to list ads" err)
  | .ok ads =>
    match uc.adRepo.CountAds s params.MinPrice params.MaxPrice with
    | .error err => .error (.wrap "failed to count ads" err)
    | .ok totalCount => .ok (ads, totalCount)

end usecase

namespace handler

/-- The parameters `AdHandler.GetAdsFeed` builds from the URL query; `pageStr`
and `limitStr` go through `strconv.Atoi`, and `minPrice`, `maxPrice` are the
results of `strconv.ParseFloat` (`none` for an error). -/
def GetAdsFeedParams (pageStr limitStr sortBy sortOrder : Bytes)
    (minPrice maxPrice : Option Float64) : usecase.ListAdsParameters :=
  { Page :=
      match ParseInt pageStr with
      | none => 1
      | some page => if page < 1 then 1 else page
    Limit :=
      match ParseInt limitStr with
      | none => 10
      | some limit => if limit < 1 ∨ limit > 100 then 10 else limit
    SortBy := sortBy
    SortOrder := sortOrder
    MinPrice := minPrice.getD (.finite 0)
    MaxPrice := maxPrice.getD (.finite 0) }

end handler

namespace postgres

/-! ## package postgres: ad_pg_repository.go, the query builders -/

/-- A value bound to a placeholder (`interface{}` in `args`). -/
inductive SqlArg where
  | float (x : Float64)
  | int (n : Int)
  deriving DecidableEq

/-- The filter part of a query under construction. -/
structure Filter where
  whereClauses : List String
  args : List SqlArg
  argCounter : Int

/-- The text `fmt.Sprintf(fmtText + "$%d", argCounter)`. -/
def placeholder (fmtText : String) (argCounter : Int) : String :=
  fmtText ++ "$" ++ text (formatInt argCounter)

/-- The filter built at the top of `PGAdRepository.ListAds`. -/
def PGAdRepository.ListAdsFilter (minPrice maxPrice : Float64) : Filter :=
  let f0 : Filter := { whereClauses := [], args := [], argCounter := 1 }
  let f1 : Filter :=
    if Float64.lt (.finite 0) minPrice then
      { whereClauses := f0.whereClauses ++ [placeholder "price >= " f0.argCounter],
        args := f0.args ++ [.float minPrice], argCounter := f0.argCounter + 1 }
    else f0
  if Float64.lt (.finite 0) maxPrice && Float64.le minPrice maxPrice then
    { whereClauses := f1.whereClauses ++ [placeholder "price <= " f1.argCounter],
      args := f1.args ++ [.float maxPrice], argCounter := f1.argCounter + 1 }
  else f1

/-- The filter built at the top of `PGAdRepository.CountAds`. -/
def PGAdRepository.CountAdsFilter (minPrice maxPrice : Float64) : Filter :=
  let f0 : Filter := { whereClauses := [], args := [], argCounter := 1 }
  let f1 : Filter :=
    if Float64.lt (.finite 0) minPrice then
      { whereClauses := f0.whereClauses ++ [placeholder "price >= " f0.argCounter],
        args := f0.args ++ [.float minPrice], argCounter := f0.argCounter + 1 }
    else f0
  if Float64.lt (.finite 0) maxPrice && Float64.le minPrice maxPrice then
    { whereClauses := f1.whereClauses ++ [placeholder "price <= " f1.argCounter],
      args := f1.args ++ [.float maxPrice], argCounter := f1.argCounter + 1 }
  else f1

/-- The variable `whereClause` of both functions. -/
def whereClause (f : Filter) : String :=
  if f.whereClauses.length > 0 then " WHERE " ++ Join f.whereClauses " AND " else ""

/-- The variable `orderByClause` of `PGAdRepository.ListAds`. -/
def PGAdRepository.orderByClause (mapUpper : Bytes → Bytes) (sortBy sortOrder : Bytes) : String :=
  let c0 := " ORDER BY created_at DESC"
  let c1 :=
    if sortBy ≠ [] then
      if sortBy = ascii "created_at" then " ORDER BY created_at"
      else if sortBy = ascii "price" then " ORDER BY price"
      else c0
    else c0
  if sortOrder ≠ [] then
    if ToUpper mapUpper sortOrder = ascii "ASC" then c1 ++ " ASC" else c1 ++ " DESC"
  else c1

/-- The query text and the arguments `PGAdRepository.ListAds` hands to
`r.db.Query`. -/
def PGAdRepository.ListAdsQuery (mapUpper : Bytes → Bytes) (offset limit : Int)
    (sortBy sortOrder : Bytes) (minPrice maxPrice : Float64) : String × List SqlArg :=
  let f := PGAdRepository.ListAdsFilter minPrice maxPrice
  ("\n\t\tSELECT id, user_id, title, description, image_url, price, created_at\n\t\tFROM ads\n\t\t"
      ++ whereClause f ++ "\n\t\t" ++ PGAdRepository.orderByClause mapUpper sortBy sortOrder
      ++ placeholder "\n\t\tOFFSET " f.argCounter ++ placeholder " LIMIT " (f.argCounter + 1),
    f.args ++ [.int offset, .int limit])

/-- The query text and the arguments `PGAdRepository.CountAds` hands to
`r.db.QueryRow`. -/
def PGAdRepository.CountAdsQuery (minPrice maxPrice : Float64) : String × List SqlArg :=
  let f := PGAdRepository.CountAdsFilter minPrice maxPrice
  ("SELECT COUNT(*) FROM ads " ++ whereClause f, f.args)

end postgres

/-! ## The shape of the page query, as the specification words it -/

namespace queryShape

/-- The sort column chosen by `sortBy`. -/
inductive Column where
  | createdAt
  | price
  | fallback
  deriving DecidableEq

/-- The direction chosen by `sortOrder`. -/
inductive Direction where
  | absent
  | asc
  | desc
  deriving DecidableEq

def column (sortBy : Bytes) : Column :=
  if sortBy = ascii "created_at" then .createdAt
  else if sortBy = ascii "price" then .price
  else .fallback

def direction (mapUpper : Bytes → Bytes) (sortOrder : Bytes) : Direction :=
  if sortOrder = [] then .absent
  else if ToUpper mapUpper sortOrder = ascii "ASC" then .asc
  else .desc

/-- The predicate `price >= minPrice` is active. -/
def minActive (minPrice : Float64) : Bool := Float64.lt (.finite 0) minPrice

/-- The predicate `price <= maxPrice` is active. -/
def maxActive (minPrice maxPrice : Float64) : Bool :=
  Float64.lt (.finite 0) maxPrice && Float64.le minPrice maxPrice

/-- The `WHERE` clause for each set of active predicates. -/
def whereText : Bool → Bool → String
  | false, false => ""
  | true, false => " WHERE price >= $1"
  | false, true => " WHERE price <= $1"
  | true, true => " WHERE price >= $1 AND price <= $2"

/-- The pagination clause for each set of active predicates. -/
def pageText : Bool → Bool → String
  | false, false => "\n\t\tOFFSET $1 LIMIT $2"
  | true, false => "\n\t\tOFFSET $2 LIMIT $3"
  | false, true => "\n\t\tOFFSET $2 LIMIT $3"
  | true, true => "\n\t\tOFFSET $3 LIMIT $4"

def columnText : Column → String
  | .createdAt => " ORDER BY created_at"
  | .price => " ORDER BY price"
  | .fallback => " ORDER BY created_at DESC"

def directionText : Direction → String
  | .absent => ""
  | .asc => " ASC"
  | .desc => " DESC"

/-- The page query for a set of active predicates and a sort selection. -/
def queryText (a b : Bool) (c : Column) (d : Direction) : String :=
  "\n\t\tSELECT id, user_id, title, description, image_url, price, created_at\n\t\tFROM ads\n\t\t"
    ++ whereText a b ++ "\n\t\t" ++ columnText c ++ directionText d ++ pageText a b

/-- The filter values bound for a set of active predicates. -/
def filterArgs (minPrice maxPrice : Float64) : List postgres.SqlArg :=
  (if minActive minPrice then [.float minPrice] else [])
    ++ (if maxActive minPrice maxPrice then [.float maxPrice] else [])

/-- The number of placeholders `$` in a query text. -/
def placeholders (q : String) : Nat := q.data.count '$'

end queryShape
/-! ## Lemmas on the standard-library models -/

theorem byte_val (b : Byte) : byte b.val = b := by
  apply Fin.ext
  simp [byte, Nat.mod_eq_of_lt b.isLt]

theorem b64Value_b64Char : ∀ i : Fin 64, b64Value (b64Char i.val) = some i.val := by
  decide

theorem b64Char_ne_dot : ∀ i : Fin 64, b64Char i.val ≠ byte 46 := by
  decide

theorem b64Value_b64Char_lt (n : Nat) (h : n < 64) : b64Value (b64Char n) = some n :=
  b64Value_b64Char ⟨n, h⟩

theorem b64Value_padChar : b64Value padChar = none := by decide

theorem isNewline_padChar : isNewline padChar = false := by decide

theorem quantumBytes_four (a b c : Byte) :
    quantumBytes [(a.val * 65536 + b.val * 256 + c.val) / 262144 % 64,
      (a.val * 65536 + b.val * 256 + c.val) / 4096 % 64,
      (a.val * 65536 + b.val * 256 + c.val) / 64 % 64,
      (a.val * 65536 + b.val * 256 + c.val) % 64] = [a, b, c] := by
  have ha := a.isLt
  have hb := b.isLt
  have hc := c.isLt
  simp only [quantumBytes, List.getD_cons_zero, List.getD_cons_succ, List.length_cons,
    List.length_nil]
  simp only [List.take, byte]
  refine congrArg₂ _ (Fin.ext ?_) (congrArg₂ _ (Fin.ext ?_) (congrArg₂ _ (Fin.ext ?_) rfl))
  · simp only; omega
  · simp only; omega
  · simp only; omega

theorem quantumBytes_three (a b : Byte) :
    quantumBytes [(a.val * 65536 + b.val * 256) / 262144 % 64,
      (a.val * 65536 + b.val * 256) / 4096 % 64,
      (a.val * 65536 + b.val * 256) / 64 % 64] = [a, b] := by
  have ha := a.isLt
  have hb := b.isLt
  simp only [quantumBytes, List.getD_cons_zero, List.getD_cons_succ, List.length_cons,
    List.length_nil, List.getD_nil]
  simp only [List.take, byte]
  refine congrArg₂ _ (Fin.ext ?_) (congrArg₂ _ (Fin.ext ?_) rfl)
  · simp only; omega
  · simp only; omega

theorem quantumBytes_two (a : Byte) :
    quantumBytes [(a.val * 65536) / 262144 % 64, (a.val * 65536) / 4096 % 64] = [a] := by
  have ha := a.isLt
  simp only [quantumBytes, List.getD_cons_zero, List.getD_cons_succ, List.length_cons,
    List.length_nil, List.getD_nil]
  simp only [List.take, byte]
  refine congrArg₂ _ (Fin.ext ?_) rfl
  simp only; omega

theorem base64DecodeAux_four (v0 v1 v2 v3 : Nat) (h0 : v0 < 64) (h1 : v1 < 64) (h2 : v2 < 64)
    (h3 : v3 < 64) (rest : Bytes) :
    base64DecodeAux (b64Char v0 :: b64Char v1 :: b64Char v2 :: b64Char v3 :: rest) [] =
      (base64DecodeAux rest []).map (fun tl => quantumBytes [v0, v1, v2, v3] ++ tl) := by
  simp [base64DecodeAux, b64Value_b64Char_lt, h0, h1, h2, h3]

/-- Decoding undoes encoding (`base64.URLEncoding`). -/
theorem base64Decode_encode (bs : Bytes) : base64Decode (base64Encode bs) = some bs := by
  unfold base64Decode
  induction bs using base64Encode.induct with
  | case1 a b c rest ih =>
    have ha := a.isLt
    have hb := b.isLt
    have hc := c.isLt
    rw [base64Encode]
    rw [base64DecodeAux_four _ _ _ _ (Nat.mod_lt _ (by decide)) (Nat.mod_lt _ (by decide))
      (Nat.mod_lt _ (by decide)) (Nat.mod_lt _ (by decide)), ih, quantumBytes_four]
    rfl
  | case2 a b =>
    rw [base64Encode]
    simp [base64DecodeAux, b64Value_b64Char_lt, Nat.mod_lt, b64Value_padChar, isNewline_padChar]
    exact quantumBytes_three a b
  | case3 a =>
    rw [base64Encode]
    simp [base64DecodeAux, b64Value_b64Char_lt, Nat.mod_lt, b64Value_padChar, isNewline_padChar]
    exact quantumBytes_two a
  | case4 => rfl


theorem padChar_ne_dot : padChar ≠ byte 46 := by decide

/-- The URL base64 text of anything has no `.` in it. -/
theorem dot_not_mem_base64Encode (bs : Bytes) : byte 46 ∉ base64Encode bs := by
  have hc : ∀ n, byte 46 ≠ b64Char (n % 64) := fun n h =>
    b64Char_ne_dot ⟨n % 64, Nat.mod_lt _ (by decide)⟩ h.symm
  have hp : byte 46 ≠ padChar := fun h => padChar_ne_dot h.symm
  induction bs using base64Encode.induct with
  | case1 a b c rest ih =>
    rw [base64Encode]
    simp [hc, ih]
  | case2 a b =>
    rw [base64Encode]
    simp [hc, hp]
  | case3 a =>
    rw [base64Encode]
    simp [hc, hp]
  | case4 => simp [base64Encode]

theorem splitDot_ne_nil (s : Bytes) : splitDot s ≠ [] := by
  cases s with
  | nil => simp [splitDot]
  | cons c rest =>
    rw [splitDot]
    split
    · simp
    · split <;> simp

theorem splitDot_length (s : Bytes) : (splitDot s).length = s.count (byte 46) + 1 := by
  induction s with
  | nil => simp [splitDot]
  | cons c rest ih =>
    rw [splitDot]
    by_cases h : c = byte 46
    · simp [h, ih]
    · have h2 : ¬ (c == byte 46) = true := by simpa using h
      rw [if_neg h, List.count_cons, if_neg h2]
      split
      · rename_i heq
        exact absurd heq (splitDot_ne_nil rest)
      · rename_i p ps heq
        rw [heq] at ih
        simpa using ih

theorem splitDot_append_dot (u rest : Bytes) (hu : byte 46 ∉ u) :
    splitDot (u ++ byte 46 :: rest) = u :: splitDot rest := by
  induction u with
  | nil => simp [splitDot]
  | cons c u ih =>
    have hc : c ≠ byte 46 := fun h => hu (by simp [h])
    have hu2 : byte 46 ∉ u := fun h => hu (by simp [h])
    rw [List.cons_append, splitDot, if_neg hc, ih hu2]

theorem splitDot_of_not_mem (u : Bytes) (hu : byte 46 ∉ u) : splitDot u = [u] := by
  induction u with
  | nil => simp [splitDot]
  | cons c u ih =>
    have hc : c ≠ byte 46 := fun h => hu (by simp [h])
    have hu2 : byte 46 ∉ u := fun h => hu (by simp [h])
    rw [splitDot, if_neg hc, ih hu2]

theorem parseDigits_append (xs ys : Bytes) (acc : Nat) :
    parseDigits (xs ++ ys) acc = (parseDigits xs acc).bind (parseDigits ys) := by
  induction xs generalizing acc with
  | nil => simp [parseDigits]
  | cons c xs ih =>
    simp only [List.cons_append, parseDigits]
    split
    · exact ih _
    · rfl

theorem parseDigits_digits (L : List Nat) (hL : ∀ d ∈ L, d < 10) (acc : Nat) :
    parseDigits (L.reverse.map (fun d => byte (48 + d))) acc
      = some (acc * 10 ^ L.length + Nat.ofDigits 10 L) := by
  induction L generalizing acc with
  | nil => simp [parseDigits]
  | cons d L ih =>
    have hd : d < 10 := hL d (by simp)
    have hL2 : ∀ x ∈ L, x < 10 := fun x hx => hL x (by simp [hx])
    rw [List.reverse_cons, List.map_append, parseDigits_append, ih hL2]
    have hb : (byte (48 + d)).val = 48 + d := by
      simp only [byte]
      omega
    simp only [List.map_cons, List.map_nil, Option.some_bind, parseDigits, hb]
    rw [if_pos (by omega)]
    simp only [Nat.ofDigits_cons, List.length_cons, pow_succ, Nat.cast_id]
    congr 1
    have : 48 + d - 48 = d := by omega
    rw [this]
    ring

theorem formatNatAux_eq (fuel n : Nat) (acc : Bytes) (h : n < fuel) :
    formatNatAux fuel n acc =
      (if n = 0 then [byte 48] else (Nat.digits 10 n).reverse.map (fun d => byte (48 + d)))
        ++ acc := by
  induction fuel generalizing n acc with
  | zero => omega
  | succ fuel ih =>
    rw [formatNatAux]
    by_cases h10 : n < 10
    · rw [if_pos h10]
      by_cases h0 : n = 0
      · subst h0
        simp
      · rw [if_neg h0, Nat.digits_of_lt 10 n h0 h10]
        simp
    · rw [if_neg h10]
      have hq : n / 10 ≠ 0 := by omega
      have hn : n ≠ 0 := by omega
      rw [ih (n / 10) _ (by omega), if_neg hq, if_neg hn,
        Nat.digits_def' (by decide) (Nat.pos_of_ne_zero hn)]
      simp

/-- The digits `formatNat` prints are those of `Nat.digits`, most significant
first. -/
theorem formatNat_eq (n : Nat) :
    formatNat n =
      if n = 0 then [byte 48] else (Nat.digits 10 n).reverse.map (fun d => byte (48 + d)) := by
  unfold formatNat
  rw [formatNatAux_eq _ _ _ (Nat.lt_succ_self n), List.append_nil]

theorem parseDigits_formatNat (n : Nat) : parseDigits (formatNat n) 0 = some n := by
  rw [formatNat_eq]
  split
  · rename_i h
    subst h
    decide
  · rw [parseDigits_digits _ (fun d hd => Nat.digits_lt_base (by decide) hd)]
    simp [Nat.ofDigits_digits]

theorem formatNat_digit (n : Nat) : ∀ c ∈ formatNat n, 48 ≤ c.val ∧ c.val ≤ 57 := by
  intro c hc
  rw [formatNat_eq] at hc
  split at hc
  · simp at hc
    subst hc
    decide
  · simp only [List.mem_map, List.mem_reverse] at hc
    obtain ⟨d, hd, rfl⟩ := hc
    have : d < 10 := Nat.digits_lt_base (by decide) hd
    simp only [byte]
    omega

theorem formatNat_ne_nil (n : Nat) : formatNat n ≠ [] := by
  rw [formatNat_eq]
  split
  · simp
  · rename_i h
    simpa using Nat.digits_ne_nil_iff_ne_zero.mpr h

theorem dot_not_mem_formatNat (n : Nat) : byte 46 ∉ formatNat n := by
  intro h
  have := formatNat_digit n _ h
  revert this
  decide

theorem dot_not_mem_formatInt (n : Int) : byte 46 ∉ formatInt n := by
  unfold formatInt
  split
  · intro h
    rcases List.mem_cons.mp h with h | h
    · revert h; decide
    · exact dot_not_mem_formatNat _ h
  · exact dot_not_mem_formatNat _

/-- `ParseInt` reads back what `%d` printed, for every `int64`. -/
theorem ParseInt_formatInt (n : Int) (h1 : -9223372036854775808 ≤ n)
    (h2 : n < 9223372036854775808) : ParseInt (formatInt n) = some n := by
  unfold formatInt
  split
  · rename_i hneg
    have hne := formatNat_ne_nil n.natAbs
    have hlen : (formatNat n.natAbs).length ≠ 0 := by
      intro h; exact hne (List.length_eq_zero.mp h)
    simp only [ParseInt, or_true, if_true, decide_True, Bool.not_true, Bool.false_and,
      Bool.true_and, if_neg hlen, parseDigits_formatNat]
    simp only [Bool.false_eq_true, if_false, decide_eq_true_eq]
    rw [if_neg (by omega)]
    congr 1
    omega
  · rename_i hpos
    have hne := formatNat_ne_nil n.toNat
    obtain ⟨c, rest, hcr⟩ := List.exists_cons_of_ne_nil hne
    have hdig := formatNat_digit n.toNat c (by rw [hcr]; simp)
    have hc1 : c ≠ byte 43 := by
      intro h; subst h; revert hdig; decide
    have hc2 : c ≠ byte 45 := by
      intro h; subst h; revert hdig; decide
    have hp := parseDigits_formatNat n.toNat
    rw [hcr] at hp ⊢
    simp only [ParseInt, hc1, hc2, or_self, if_false, decide_False, List.length_cons, hp]
    simp only [Nat.add_one_ne_zero, if_false, Bool.not_false, Bool.true_and, Bool.false_and,
      decide_eq_true_eq, Bool.false_eq_true]
    rw [if_neg (by omega)]
    congr 1
    omega


theorem AddUnix_inRange (t : Time) (d : Duration) :
    -9223372036854775808 ≤ t.AddUnix d ∧ t.AddUnix d < 9223372036854775808 := by
  have h1 := t.inRange
  have h2 := d.inRange
  unfold Time.AddUnix
  omega

theorem Unix_le_AddUnix (t : Time) (d : Duration) (hd : 0 ≤ d.ns) : t.Unix ≤ t.AddUnix d := by
  unfold Time.AddUnix Time.Unix
  omega

theorem base64Encode_injective (a b : Bytes) (h : base64Encode a = base64Encode b) : a = b := by
  have := base64Decode_encode a
  rw [h, base64Decode_encode] at this
  exact (Option.some.inj this).symm

namespace util

theorem GenerateToken_fst (now : Time) (userID secretKey : Bytes) (expiration : Duration) :
    (GenerateToken now userID secretKey expiration).1 =
      base64Encode (tokenText userID (now.AddUnix expiration)
        (signature secretKey userID (now.AddUnix expiration))) := rfl

theorem dot_not_mem_signature (key userID : Bytes) (e : Int) :
    byte 46 ∉ signature key userID e := dot_not_mem_base64Encode _

theorem ParseToken_of_length_ne (now : Time) (tok key d : Bytes)
    (hdec : base64Decode tok = some d) (hlen : (splitDot d).length ≠ 3) :
    ParseToken now tok key = ([], some ErrInvalidToken) := by
  unfold ParseToken
  rw [hdec]
  simp only []
  split
  · rename_i heq
    rw [heq] at hlen
    simp at hlen
  · rfl

theorem ParseToken_of_split (now : Time) (tok key d u es s : Bytes) (e : Int)
    (hdec : base64Decode tok = some d) (hsplit : splitDot d = [u, es, s])
    (hint : ParseInt es = some e) :
    ParseToken now tok key =
      if now.Unix > e then ([], some ErrInvalidToken)
      else if s ≠ signature key u e then ([], some ErrInvalidToken)
      else (u, none) := by
  unfold ParseToken
  rw [hdec]
  simp only [hsplit, hint, hmacEqual]
  by_cases h1 : now.Unix > e
  · simp [h1]
  · by_cases h2 : s = signature key u e
    · simp [h1, h2]
    · simp [h1, h2]

theorem splitDot_tokenText (u s : Bytes) (e : Int) (hu : byte 46 ∉ u) (hs : byte 46 ∉ s) :
    splitDot (tokenText u e s) = [u, formatInt e, s] := by
  unfold tokenText
  have h : u ++ [byte 46] ++ formatInt e ++ [byte 46] ++ s
      = u ++ byte 46 :: (formatInt e ++ byte 46 :: s) := by simp
  rw [h, splitDot_append_dot _ _ hu, splitDot_append_dot _ _ (dot_not_mem_formatInt e),
    splitDot_of_not_mem _ hs]

theorem count_dot_tokenText (u s : Bytes) (e : Int) :
    (tokenText u e s).count (byte 46) = u.count (byte 46) + s.count (byte 46) + 2 := by
  unfold tokenText
  have h0 : (formatInt e).count (byte 46) = 0 :=
    List.count_eq_zero.mpr (dot_not_mem_formatInt e)
  simp only [List.count_append, h0, List.count_singleton_self]
  omega

/-- What `ParseToken` does with the encoding of a text `userID.expiry.sig`
whose expiry is the rendering of an `int64`. -/
theorem ParseToken_tokenText (now : Time) (key u s : Bytes) (e : Int)
    (h1 : -9223372036854775808 ≤ e) (h2 : e < 9223372036854775808) :
    ParseToken now (base64Encode (tokenText u e s)) key =
      if byte 46 ∈ u ∨ byte 46 ∈ s then ([], some ErrInvalidToken)
      else if now.Unix > e then ([], some ErrInvalidToken)
      else if s ≠ signature key u e then ([], some ErrInvalidToken)
      else (u, none) := by
  by_cases hd : byte 46 ∈ u ∨ byte 46 ∈ s
  · rw [if_pos hd]
    apply ParseToken_of_length_ne now _ key _ (base64Decode_encode _)
    rw [splitDot_length, count_dot_tokenText]
    have : 0 < u.count (byte 46) + s.count (byte 46) := by
      rcases hd with h | h
      · have := List.count_pos_iff.mpr h
        omega
      · have := List.count_pos_iff.mpr h
        omega
    omega
  · rw [if_neg hd]
    have hu : byte 46 ∉ u := fun h => hd (Or.inl h)
    have hs : byte 46 ∉ s := fun h => hd (Or.inr h)
    exact ParseToken_of_split now _ key _ u _ s e (base64Decode_encode _)
      (splitDot_tokenText u s e hu hs) (ParseInt_formatInt e h1 h2)

/-- What `ParseToken` under `key2` at `t` does with the token `GenerateToken`
issued under `key` at `t0`. -/
theorem ParseToken_GenerateToken (t0 t : Time) (userID key key2 : Bytes) (ttl : Duration) :
    ParseToken t (GenerateToken t0 userID key ttl).1 key2 =
      if byte 46 ∈ userID then ([], some ErrInvalidToken)
      else if t.Unix > t0.AddUnix ttl then ([], some ErrInvalidToken)
      else if signature key userID (t0.AddUnix ttl) ≠ signature key2 userID (t0.AddUnix ttl) then
        ([], some ErrInvalidToken)
      else (userID, none) := by
  rw [GenerateToken_fst, ParseToken_tokenText _ _ _ _ _ (AddUnix_inRange t0 ttl).1
    (AddUnix_inRange t0 ttl).2]
  simp [dot_not_mem_signature]

end util

/-! ## Lemmas on the use cases -/

theorem errorsIs_self (e : Error) : errorsIs e e = true := by
  cases e <;> simp [errorsIs]

theorem utf8ByteSize_go_ge (l : List Char) : l.length ≤ String.utf8ByteSize.go l := by
  induction l with
  | nil => simp [String.utf8ByteSize.go]
  | cons c cs ih =>
    have := Char.utf8Size_pos c
    simp only [String.utf8ByteSize.go, List.length_cons]
    omega

/-- A string has at most as many characters as bytes. -/
theorem length_le_utf8ByteSize (s : String) : s.length ≤ s.utf8ByteSize :=
  utf8ByteSize_go_ge s.data

namespace usecase

theorem runeIn_iff (lo hi r : Char) :
    runeIn lo hi r = true ↔ lo.toNat ≤ r.toNat ∧ r.toNat ≤ hi.toNat := by
  simp [runeIn]

theorem isValidLogin_iff (login : String) : isValidLogin login = true ↔ rules.loginChars login := by
  simp only [isValidLogin, List.all_eq_true, rules.loginChars, Bool.or_eq_true, runeIn_iff,
    decide_eq_true_eq, rules.isLower, rules.isUpper, rules.isDigit]
  constructor
  · intro h c hc
    have := h c hc
    tauto
  · intro h c hc
    have := h c hc
    tauto

theorem special_not_alnum : ∀ c ∈ specialChars.data,
    runeIn 'A' 'Z' c = false ∧ runeIn 'a' 'z' c = false ∧ runeIn '0' '9' c = false := by
  decide

theorem upper_not_lower (r : Char) (h : runeIn 'A' 'Z' r = true) : runeIn 'a' 'z' r = false := by
  have h1 : 'Z'.toNat = 90 := by decide
  have h2 : 'a'.toNat = 97 := by decide
  rw [runeIn_iff] at h
  cases hb : runeIn 'a' 'z' r
  · rfl
  · rw [runeIn_iff] at hb
    omega

theorem digit_not_letter (r : Char) (h : runeIn '0' '9' r = true) :
    runeIn 'A' 'Z' r = false ∧ runeIn 'a' 'z' r = false := by
  have h1 : '9'.toNat = 57 := by decide
  have h2 : 'a'.toNat = 97 := by decide
  have h3 : 'A'.toNat = 65 := by decide
  rw [runeIn_iff] at h
  constructor
  · cases hb : runeIn 'A' 'Z' r
    · rfl
    · rw [runeIn_iff] at hb
      omega
  · cases hb : runeIn 'a' 'z' r
    · rfl
    · rw [runeIn_iff] at hb
      omega

/-- The flags after the loop of `isValidPassword`: each is set exactly when
it was set before or some rune of its class occurs. -/
theorem foldl_passwordStep (l : List Char) (f : PasswordFlags) :
    (l.foldl passwordStep f).hasUpper = (f.hasUpper || l.any (runeIn 'A' 'Z')) ∧
    (l.foldl passwordStep f).hasLower = (f.hasLower || l.any (runeIn 'a' 'z')) ∧
    (l.foldl passwordStep f).hasDigit = (f.hasDigit || l.any (runeIn '0' '9')) ∧
    (l.foldl passwordStep f).hasSpecial
      = (f.hasSpecial || l.any (fun r => specialChars.data.contains r)) := by
  induction l generalizing f with
  | nil => simp
  | cons r l ih =>
    simp only [List.foldl_cons, List.any_cons]
    obtain ⟨i1, i2, i3, i4⟩ := ih (passwordStep f r)
    rw [i1, i2, i3, i4]
    unfold passwordStep
    by_cases hU : runeIn 'A' 'Z' r = true
    · have hL := upper_not_lower r hU
      have hD : runeIn '0' '9' r = false := by
        cases hb : runeIn '0' '9' r
        · rfl
        · have := (digit_not_letter r hb).1
          rw [hU] at this
          cases this
      have hS : r ∉ specialChars.data := by
        intro hb
        have := (special_not_alnum r hb).1
        rw [hU] at this
        cases this
      simp [hU, hL, hD, hS]
    · have hU2 : runeIn 'A' 'Z' r = false := by simpa using hU
      by_cases hL : runeIn 'a' 'z' r = true
      · have hD : runeIn '0' '9' r = false := by
          cases hb : runeIn '0' '9' r
          · rfl
          · have := (digit_not_letter r hb).2
            rw [hL] at this
            cases this
        have hS : r ∉ specialChars.data := by
          intro hb
          have := (special_not_alnum r hb).2.1
          rw [hL] at this
          cases this
        simp [hU2, hL, hD, hS]
      · have hL2 : runeIn 'a' 'z' r = false := by simpa using hL
        by_cases hD : runeIn '0' '9' r = true
        · have hS : r ∉ specialChars.data := by
            intro hb
            have := (special_not_alnum r hb).2.2
            rw [hD] at this
            cases this
          simp [hU2, hL2, hD, hS]
        · have hD2 : runeIn '0' '9' r = false := by simpa using hD
          by_cases hS : r ∈ specialChars.data
          · simp [hU2, hL2, hD2, hS]
          · simp [hU2, hL2, hD2, hS]

theorem isValidPassword_iff (password : String) :
    isValidPassword password = true ↔ rules.passwordComposition password := by
  obtain ⟨i1, i2, i3, i4⟩ := foldl_passwordStep password.data ⟨false, false, false, false⟩
  simp only [isValidPassword, i1, i2, i3, i4, Bool.false_or, Bool.and_eq_true, List.any_eq_true,
    runeIn_iff, rules.passwordComposition, rules.isUpper, rules.isLower, rules.isDigit,
    List.contains_eq_any_beq, beq_iff_eq, exists_eq_right', and_assoc]

end usecase

/-! ## Lemmas on the ad service and the query builders -/

theorem Float64.le_zero_of_pos (p : Float64) (h : Float64.lt (.finite 0) p = true) :
    Float64.le p (.finite 0) = false := by
  cases p with
  | finite q =>
    simp only [Float64.lt, decide_eq_true_eq] at h
    simp only [Float64.le, decide_eq_false_iff_not, not_le]
    exact h
  | posInf => rfl
  | negInf => simp [Float64.lt] at h
  | nan => rfl

theorem utf8ByteSize_ne_empty (s : String) (h : 1 ≤ s.utf8ByteSize) : s ≠ "" := by
  intro he
  subst he
  revert h
  decide

/-- While the product fits an `int`, the offset of `ListAds` is the integer
product and is not negative. -/
theorem offset_eq_product (params : usecase.ListAdsParameters)
    (hpage : params.Page < 9223372036854775808)
    (hfit : (params.page - 1) * params.limit < 9223372036854775808) :
    params.offset = (params.page - 1) * params.limit ∧ 0 ≤ params.offset := by
  have hp : 1 ≤ params.page ∧ params.page < 9223372036854775808 := by
    unfold usecase.ListAdsParameters.page
    split <;> omega
  have hl : 1 ≤ params.limit ∧ params.limit ≤ 100 := by
    unfold usecase.ListAdsParameters.limit
    split <;> omega
  have hprod : 0 ≤ (params.page - 1) * params.limit :=
    Int.mul_nonneg (by omega) (by omega)
  have h1 : wrapInt (params.page - 1) = params.page - 1 := by
    unfold wrapInt
    omega
  have h2 : params.offset = (params.page - 1) * params.limit := by
    unfold usecase.ListAdsParameters.offset
    rw [h1]
    generalize (params.page - 1) * params.limit = x at hfit hprod
    unfold wrapInt
    omega
  exact ⟨h2, h2 ▸ hprod⟩

theorem splitDot_singleton (d p : Bytes) (h : splitDot d = [p]) : d = p := by
  induction d generalizing p with
  | nil =>
    simp only [splitDot, List.cons.injEq, and_true] at h
    exact h
  | cons c rest ih =>
    rw [splitDot] at h
    split at h
    · have := splitDot_ne_nil rest
      simp only [List.cons.injEq] at h
      exact absurd h.2 this
    · split at h
      · rename_i heq
        exact absurd heq (splitDot_ne_nil rest)
      · rename_i q qs heq
        simp only [List.cons.injEq] at h
        obtain ⟨h1, h2⟩ := h
        subst h1 h2
        rw [ih q heq]

theorem splitDot_cons_cons (d p q : Bytes) (qs : List Bytes) (h : splitDot d = p :: q :: qs) :
    ∃ rest, d = p ++ byte 46 :: rest ∧ splitDot rest = q :: qs := by
  induction d generalizing p with
  | nil => simp [splitDot] at h
  | cons c rest ih =>
    rw [splitDot] at h
    split at h
    · rename_i hc
      simp only [List.cons.injEq] at h
      obtain ⟨h1, h2⟩ := h
      subst h1 hc
      exact ⟨rest, rfl, h2⟩
    · split at h
      · rename_i heq
        exact absurd heq (splitDot_ne_nil rest)
      · rename_i p2 ps heq
        simp only [List.cons.injEq] at h
        obtain ⟨h1, h2⟩ := h
        subst h1 h2
        obtain ⟨r, hr1, hr2⟩ := ih p2 heq
        exact ⟨r, by rw [hr1]; rfl, hr2⟩

/-- A text that splits into three fields is those fields joined by dots. -/
theorem splitDot_three (d a b c : Bytes) (h : splitDot d = [a, b, c]) :
    d = a ++ byte 46 :: (b ++ byte 46 :: c) := by
  obtain ⟨r1, h1, h2⟩ := splitDot_cons_cons d a b [c] h
  obtain ⟨r2, h3, h4⟩ := splitDot_cons_cons r1 b c [] h2
  rw [h1, h3, splitDot_singleton r2 c h4]

namespace queryShape

theorem placeholders_queryText (a b : Bool) (c : Column) (d : Direction) :
    placeholders (queryText a b c d) = (if a then 1 else 0) + (if b then 1 else 0) + 2 := by
  cases a <;> cases b <;> cases c <;> cases d <;> decide

theorem length_filterArgs (minPrice maxPrice : Float64) :
    (filterArgs minPrice maxPrice).length
      = (if minActive minPrice then 1 else 0) + (if maxActive minPrice maxPrice then 1 else 0) := by
  unfold filterArgs
  cases minActive minPrice <;> cases maxActive minPrice maxPrice <;> rfl

end queryShape

namespace postgres

theorem ListAdsFilter_eq (minPrice maxPrice : Float64) :
    whereClause (PGAdRepository.ListAdsFilter minPrice maxPrice)
        = queryShape.whereText (queryShape.minActive minPrice)
            (queryShape.maxActive minPrice maxPrice) ∧
      (PGAdRepository.ListAdsFilter minPrice maxPrice).args
        = queryShape.filterArgs minPrice maxPrice ∧
      placeholder "\n\t\tOFFSET " (PGAdRepository.ListAdsFilter minPrice maxPrice).argCounter
          ++ placeholder " LIMIT " ((PGAdRepository.ListAdsFilter minPrice maxPrice).argCounter + 1)
        = queryShape.pageText (queryShape.minActive minPrice)
            (queryShape.maxActive minPrice maxPrice) := by
  unfold PGAdRepository.ListAdsFilter queryShape.filterArgs queryShape.minActive
    queryShape.maxActive
  cases h1 : Float64.lt (.finite 0) minPrice <;>
    cases h2 : (Float64.lt (.finite 0) maxPrice && Float64.le minPrice maxPrice) <;>
    simp only [h1, h2, Bool.false_eq_true, if_false, if_true] <;>
    refine ⟨?_, ?_, ?_⟩ <;> trivial

theorem orderByClause_eq (mapUpper : Bytes → Bytes) (sortBy sortOrder : Bytes) :
    PGAdRepository.orderByClause mapUpper sortBy sortOrder
      = queryShape.columnText (queryShape.column sortBy)
          ++ queryShape.directionText (queryShape.direction mapUpper sortOrder) := by
  have hn1 : ([] : Bytes) ≠ ascii "created_at" := by decide
  have hn2 : ([] : Bytes) ≠ ascii "price" := by decide
  have hn3 : ascii "price" ≠ ascii "created_at" := by decide
  have hn4 : ascii "created_at" ≠ ([] : Bytes) := by decide
  have hn5 : ascii "price" ≠ ([] : Bytes) := by decide
  unfold PGAdRepository.orderByClause queryShape.column queryShape.direction
  by_cases hs : sortBy = []
  · subst hs
    by_cases ho : sortOrder = []
    · subst ho
      simp [hn1, hn2, queryShape.columnText, queryShape.directionText]
    · by_cases hu : ToUpper mapUpper sortOrder = ascii "ASC"
      · simp [hn1, hn2, ho, hu, queryShape.columnText, queryShape.directionText]
      · simp [hn1, hn2, ho, hu, queryShape.columnText, queryShape.directionText]
  · by_cases hc : sortBy = ascii "created_at"
    · by_cases ho : sortOrder = []
      · simp [hc, hn4, ho, queryShape.columnText, queryShape.directionText]
      · by_cases hu : ToUpper mapUpper sortOrder = ascii "ASC"
        · simp [hc, hn4, ho, hu, queryShape.columnText, queryShape.directionText]
        · simp [hc, hn4, ho, hu, queryShape.columnText, queryShape.directionText]
    · by_cases hp : sortBy = ascii "price"
      · by_cases ho : sortOrder = []
        · simp [hs, hc, hp, hn3, hn5, ho, queryShape.columnText, queryShape.directionText]
        · by_cases hu : ToUpper mapUpper sortOrder = ascii "ASC"
          · simp [hs, hc, hp, hn3, hn5, ho, hu, queryShape.columnText, queryShape.directionText]
          · simp [hs, hc, hp, hn3, hn5, ho, hu, queryShape.columnText, queryShape.directionText]
      · by_cases ho : sortOrder = []
        · simp [hs, hc, hp, hn3, hn5, ho, queryShape.columnText, queryShape.directionText]
        · by_cases hu : ToUpper mapUpper sortOrder = ascii "ASC"
          · simp [hs, hc, hp, hn3, hn5, ho, hu, queryShape.columnText, queryShape.directionText]
          · simp [hs, hc, hp, hn3, hn5, ho, hu, queryShape.columnText, queryShape.directionText]

/-- The text and the arguments of the page query, by the active predicates
and the sort selection. -/
theorem ListAdsQuery_eq (mapUpper : Bytes → Bytes) (offset limit : Int) (sortBy sortOrder : Bytes)
    (minPrice maxPrice : Float64) :
    PGAdRepository.ListAdsQuery mapUpper offset limit sortBy sortOrder minPrice maxPrice
      = (queryShape.queryText (queryShape.minActive minPrice)
            (queryShape.maxActive minPrice maxPrice) (queryShape.column sortBy)
            (queryShape.direction mapUpper sortOrder),
          queryShape.filterArgs minPrice maxPrice ++ [.int offset, .int limit]) := by
  obtain ⟨h1, h2, h3⟩ := ListAdsFilter_eq minPrice maxPrice
  unfold PGAdRepository.ListAdsQuery queryShape.queryText
  simp only [h1, h2, orderByClause_eq, String.append_assoc, h3]

end postgres

/-! ## Token codec: claims C1 to C4 -/

namespace util

/-- C1, as stated, fails on a user ID with a dot: the token issued for `a.b`
(non-empty, positive ttl) is rejected with `ErrInvalidToken` at the instant of
issuance, because its text splits into four fields. -/
theorem c1_roundtrip_fails_on_dotted_userID :
    ascii "a.b" ≠ [] ∧ 0 < oneDay.ns ∧
      ParseToken sampleNow (GenerateToken sampleNow (ascii "a.b") (ascii "secret") oneDay).1
        (ascii "secret") = ([], some ErrInvalidToken) := by
  refine ⟨by decide, by decide, ?_⟩
  rw [ParseToken_GenerateToken, if_pos (by decide)]

/-- C1 (amended): for every non-empty userID with no `.` in it, every secret
key and every positive ttl, parsing the token `GenerateToken` issued, with the
same key and at the instant of issuance, returns exactly userID and no error
(and `GenerateToken` itself returns no error). -/
theorem c1_parse_generate_roundtrip (now : Time) (userID secretKey : Bytes) (ttl : Duration)
    (_hne : userID ≠ []) (hdot : byte 46 ∉ userID) (httl : 0 < ttl.ns) :
    (GenerateToken now userID secretKey ttl).2 = none ∧
      ParseToken now (GenerateToken now userID secretKey ttl).1 secretKey = (userID, none) := by
  refine ⟨rfl, ?_⟩
  have hle : ¬ now.Unix > now.AddUnix ttl := by
    have := Unix_le_AddUnix now ttl (le_of_lt httl)
    omega
  rw [ParseToken_GenerateToken, if_neg hdot, if_neg hle, if_neg (by simp)]

theorem c1_parse_generate_roundtrip_witness :
    ParseToken sampleNow (GenerateToken sampleNow (ascii "3f7c2a10") (ascii "secret") oneDay).1
        (ascii "secret") = (ascii "3f7c2a10", none) :=
  (c1_parse_generate_roundtrip sampleNow (ascii "3f7c2a10") (ascii "secret") oneDay
    (by decide) (by decide) (by decide)).2

/-- C2, as stated, fails within the second in which the token expires: a token
issued at `sampleNow` with a ttl of one second is still accepted one and a
half seconds later, an instant later than issuance plus ttl. -/
theorem c2_accepted_after_ttl_within_the_second :
    sampleNow.unixNano + oneSecond.ns < sampleNowPlus1500ms.unixNano ∧
      ParseToken sampleNowPlus1500ms
        (GenerateToken sampleNow (ascii "u1") (ascii "secret") oneSecond).1 (ascii "secret")
        = (ascii "u1", none) := by
  refine ⟨by decide, ?_⟩
  rw [ParseToken_GenerateToken, if_neg (by decide), if_neg (by decide), if_neg (by simp)]

/-- C2 (amended): for every userID, secret key, ttl and issuance instant t0,
parsing the token issued at t0 with that ttl at any instant t whose Unix second
is later than the Unix second of t0 + ttl fails with `ErrInvalidToken`; every
instant t at least one second after t0 + ttl is such an instant. -/
theorem c2_expired_token_rejected (t0 t : Time) (userID secretKey : Bytes) (ttl : Duration) :
    (t0.AddUnix ttl < t.Unix →
      ParseToken t (GenerateToken t0 userID secretKey ttl).1 secretKey
        = ([], some ErrInvalidToken)) ∧
    (t0.unixNano + ttl.ns + 1000000000 ≤ t.unixNano →
      ParseToken t (GenerateToken t0 userID secretKey ttl).1 secretKey
        = ([], some ErrInvalidToken)) := by
  have key : t0.AddUnix ttl < t.Unix →
      ParseToken t (GenerateToken t0 userID secretKey ttl).1 secretKey
        = ([], some ErrInvalidToken) := by
    intro hexp
    rw [ParseToken_GenerateToken]
    by_cases hdot : byte 46 ∈ userID
    · rw [if_pos hdot]
    · rw [if_neg hdot, if_pos (by omega)]
  refine ⟨key, fun hlate => key ?_⟩
  unfold Time.AddUnix Time.Unix
  omega

theorem c2_expired_token_rejected_witness :
    ParseToken sampleNowPlus2s
        (GenerateToken sampleNow (ascii "u1") (ascii "secret") oneSecond).1 (ascii "secret")
      = ([], some ErrInvalidToken) ∧
    ParseToken sampleNowPlus2s
        (GenerateToken sampleNow (ascii "u1") (ascii "secret") oneSecond).1 (ascii "secret")
      = ([], some ErrInvalidToken) :=
  ⟨(c2_expired_token_rejected sampleNow sampleNowPlus2s (ascii "u1") (ascii "secret")
      oneSecond).1 (by decide),
    (c2_expired_token_rejected sampleNow sampleNowPlus2s (ascii "u1") (ascii "secret")
      oneSecond).2 (by decide)⟩

theorem hmacKeyBlock_trailing_zero : hmacKeyBlock [byte 107, byte 0] = hmacKeyBlock [byte 107] := by
  decide

/-- C3, as stated, fails on keys that HMAC pads to the same block: a token
issued under the one-byte key `k` is accepted under the different key `k\x00`. -/
theorem c3_different_key_accepted :
    ([byte 107, byte 0] : Bytes) ≠ [byte 107] ∧
      ParseToken sampleNow (GenerateToken sampleNow (ascii "u1") [byte 107] oneDay).1
        [byte 107, byte 0] = (ascii "u1", none) := by
  refine ⟨by decide, ?_⟩
  have hsig : signature [byte 107] (ascii "u1") (sampleNow.AddUnix oneDay)
      = signature [byte 107, byte 0] (ascii "u1") (sampleNow.AddUnix oneDay) := by
    unfold signature hmacSHA256
    rw [hmacKeyBlock_trailing_zero]
  rw [ParseToken_GenerateToken, if_neg (by decide), if_neg (by decide), if_neg (by simp [hsig])]

/-- C3 (amended): for every userID, every ttl and every two secret keys k and
k2 under which the HMAC-SHA256 tags of the signed data `userID.expiry` differ,
parsing under k2 a token that `GenerateToken` issued under k fails with
`ErrInvalidToken`. -/
theorem c3_other_key_rejected (t0 t : Time) (userID k k2 : Bytes) (ttl : Duration)
    (hmac : hmacSHA256 k2 (dataToSign userID (t0.AddUnix ttl))
      ≠ hmacSHA256 k (dataToSign userID (t0.AddUnix ttl))) :
    ParseToken t (GenerateToken t0 userID k ttl).1 k2 = ([], some ErrInvalidToken) := by
  have hsig : signature k userID (t0.AddUnix ttl) ≠ signature k2 userID (t0.AddUnix ttl) := by
    intro h
    exact hmac (base64Encode_injective _ _ h).symm
  rw [ParseToken_GenerateToken]
  by_cases hdot : byte 46 ∈ userID
  · rw [if_pos hdot]
  · rw [if_neg hdot]
    by_cases hexp : t.Unix > t0.AddUnix ttl
    · rw [if_pos hexp]
    · rw [if_neg hexp, if_pos hsig]

set_option maxRecDepth 100000 in
theorem c3_other_key_rejected_witness :
    ParseToken sampleNow (GenerateToken sampleNow (ascii "u1") (ascii "secret") oneDay).1
      (ascii "Secret") = ([], some ErrInvalidToken) :=
  c3_other_key_rejected sampleNow sampleNow (ascii "u1") (ascii "secret") (ascii "Secret") oneDay
    (by decide)

/-- C4: for every secret key and every token string whose decoded text has
three dot-separated fields userID, expiry, signature, if the signature field
differs from the signature `GenerateToken` computes for that userID and expiry
under the key (for whatever integer the expiry field reads as), `ParseToken`
fails with `ErrInvalidToken`; and the text of an issued token with its
signature field replaced by any other string is rejected in the same way. -/
theorem c4_wrong_signature_rejected (now : Time) (secretKey : Bytes) :
    (∀ tokenString decoded userID expiry sig : Bytes,
      base64Decode tokenString = some decoded →
      splitDot decoded = [userID, expiry, sig] →
      (∀ n, ParseInt expiry = some n → sig ≠ signature secretKey userID n) →
      ParseToken now tokenString secretKey = ([], some ErrInvalidToken)) ∧
    (∀ (t0 : Time) (userID : Bytes) (ttl : Duration) (sig : Bytes),
      sig ≠ signature secretKey userID (t0.AddUnix ttl) →
      ParseToken now (base64Encode (tokenText userID (t0.AddUnix ttl) sig)) secretKey
        = ([], some ErrInvalidToken)) := by
  constructor
  · intro tokenString decoded userID expiry sig hdec hsplit hsig
    cases hint : ParseInt expiry with
    | none =>
      unfold ParseToken
      rw [hdec]
      simp only [hsplit, hint]
    | some n =>
      rw [ParseToken_of_split now _ secretKey _ _ _ _ n hdec hsplit hint]
      by_cases hexp : now.Unix > n
      · rw [if_pos hexp]
      · rw [if_neg hexp, if_pos (hsig n hint)]
  · intro t0 userID ttl sig hsig
    rw [ParseToken_tokenText _ _ _ _ _ (AddUnix_inRange t0 ttl).1 (AddUnix_inRange t0 ttl).2]
    by_cases hdot : byte 46 ∈ userID ∨ byte 46 ∈ sig
    · rw [if_pos hdot]
    · rw [if_neg hdot]
      by_cases hexp : now.Unix > t0.AddUnix ttl
      · rw [if_pos hexp]
      · rw [if_neg hexp, if_pos hsig]

theorem not_signature_of_decode_none (s key userID : Bytes) (n : Int)
    (h : base64Decode s = none) : s ≠ signature key userID n := by
  intro heq
  rw [heq, signature, base64Decode_encode] at h
  cases h

theorem c4_wrong_signature_rejected_witness :
    ParseToken sampleNow (base64Encode (ascii "u1.1700086400.forged")) (ascii "secret")
        = ([], some ErrInvalidToken) ∧
      ParseToken sampleNow
        (base64Encode (tokenText (ascii "u1") (sampleNow.AddUnix oneDay) (ascii "forged")))
        (ascii "secret") = ([], some ErrInvalidToken) :=
  ⟨(c4_wrong_signature_rejected sampleNow (ascii "secret")).1
      (base64Encode (ascii "u1.1700086400.forged")) (ascii "u1.1700086400.forged")
      (ascii "u1") (ascii "1700086400") (ascii "forged") (base64Decode_encode _) (by decide)
      (fun n _ => not_signature_of_decode_none _ _ _ n (by decide)),
    (c4_wrong_signature_rejected sampleNow (ascii "secret")).2 sampleNow (ascii "u1") oneDay
      (ascii "forged") (not_signature_of_decode_none _ _ _ _ (by decide))⟩

end util

/-! ## Auth service: registration, validation order, claims C5 to C7 -/

namespace usecase

/-- Registration followed by authentication, when the hasher accepts the
password: for every (login, password) pair that satisfies the four
registration rules (lengths being `len`), from a store that holds no user with
that login and whose operations succeed (the insert succeeds and the user is
then returned by login), with a hashing call that succeeds and a hasher whose
hashes verify their password, `RegisterUser` succeeds and a following
`AuthenticateUser` with the same credentials returns the token issued for the
new user. -/
theorem register_then_authenticate_of_hash {σ : Type} (uc : AuthUseCase σ) (bc : Bcrypt)
    (rand newID : Bytes) (now now2 : Time) (s : σ) (login password hash : String)
    (hvalid : rules.valid login password)
    (hfree : uc.userRepo.GetUserByLogin s login = .ok none)
    (hhash : bc.GenerateFromPassword rand password bcryptDefaultCost = .ok hash)
    (hverify : ∀ r p c h, bc.GenerateFromPassword r p c = .ok h →
      bc.CompareHashAndPassword h p = none)
    (hcreate : (uc.userRepo.CreateUser s ⟨newID, login, hash, now⟩).1 = none)
    (hget : uc.userRepo.GetUserByLogin (uc.userRepo.CreateUser s ⟨newID, login, hash, now⟩).2
      login = .ok (some ⟨newID, login, hash, now⟩)) :
    uc.RegisterUser bc rand newID now s login password
        = (.ok ⟨newID, login, hash, now⟩,
            (uc.userRepo.CreateUser s ⟨newID, login, hash, now⟩).2) ∧
      uc.AuthenticateUser bc now2 (uc.userRepo.CreateUser s ⟨newID, login, hash, now⟩).2
          login password
        = ((util.GenerateToken now2 newID uc.tokenSecretKey uc.tokenExpiration).1, none) := by
  obtain ⟨hl1, hl2, hp1, hp2⟩ := hvalid
  have v1 : ¬ (login.utf8ByteSize < 3 ∨ login.utf8ByteSize > 50) := by
    unfold rules.loginLength at hl1
    omega
  have v2 : isValidLogin login = true := (isValidLogin_iff login).mpr hl2
  have v3 : ¬ (password.utf8ByteSize < 8 ∨ password.utf8ByteSize > 100) := by
    unfold rules.passwordLength at hp1
    omega
  have v4 : isValidPassword password = true := (isValidPassword_iff password).mpr hp2
  constructor
  · unfold AuthUseCase.RegisterUser
    rw [if_neg v1]
    simp only [v2, v4, Bool.not_true, Bool.false_eq_true, if_false, if_neg v3, hfree,
      util.HashPassword, hhash]
    generalize hc : uc.userRepo.CreateUser s ⟨newID, login, hash, now⟩ = r at hcreate
    obtain ⟨e, s2⟩ := r
    simp only at hcreate
    subst hcreate
    rfl
  · unfold AuthUseCase.AuthenticateUser
    rw [hget]
    have hck : util.CheckPasswordHash bc password hash = true := by
      unfold util.CheckPasswordHash
      rw [hverify rand password bcryptDefaultCost hash hhash]
      rfl
    simp only [hck, Bool.not_true, Bool.false_eq_true, if_false]
    rfl

theorem register_then_authenticate_of_hash_sample :
    sampleAuth.RegisterUser sampleBcrypt (ascii "salt") (ascii "id-1") sampleNow []
        "valid_user-1" "Abcdef1!"
      = (.ok ⟨ascii "id-1", "valid_user-1", "salt$Abcdef1!", sampleNow⟩,
          [⟨ascii "id-1", "valid_user-1", "salt$Abcdef1!", sampleNow⟩]) ∧
    sampleAuth.AuthenticateUser sampleBcrypt sampleNowPlus2s
        [⟨ascii "id-1", "valid_user-1", "salt$Abcdef1!", sampleNow⟩] "valid_user-1" "Abcdef1!"
      = ((util.GenerateToken sampleNowPlus2s (ascii "id-1") (ascii "secret") oneDay).1, none) :=
  register_then_authenticate_of_hash sampleAuth sampleBcrypt (ascii "salt") (ascii "id-1") sampleNow
    sampleNowPlus2s [] "valid_user-1" "Abcdef1!" "salt$Abcdef1!" (by decide) rfl rfl
    (by
      intro r p c h hh
      simp only [sampleBcrypt, Except.ok.injEq] at hh
      subst hh
      simp only [sampleBcrypt, List.isSuffixOf, String.data_append, ite_eq_left_iff]
      simp)
    rfl rfl

/-- The order of validation in `RegisterUser`, with lengths counted as the
code counts them (`len`, the bytes of the string): login length, login
character set, password length, password composition. Whatever the store, the
hasher and the later rules say, it fails with the `ValidationErr` carrying the
message of the first of these tests that fails and leaves the store untouched;
when all four pass, what it returns is no `ValidationErr`. -/
theorem RegisterUser_validation_order {σ : Type} (uc : AuthUseCase σ) (bc : Bcrypt) (rand newID : Bytes)
    (now : Time) (s : σ) (login password : String) :
    (¬ rules.loginLength login →
      uc.RegisterUser bc rand newID now s login password
        = (.error (.validationErr msgLoginLength), s)) ∧
    (rules.loginLength login → ¬ rules.loginChars login →
      uc.RegisterUser bc rand newID now s login password
        = (.error (.validationErr msgLoginChars), s)) ∧
    (rules.loginLength login → rules.loginChars login → ¬ rules.passwordLength password →
      uc.RegisterUser bc rand newID now s login password
        = (.error (.validationErr msgPasswordLength), s)) ∧
    (rules.loginLength login → rules.loginChars login → rules.passwordLength password →
      ¬ rules.passwordComposition password →
      uc.RegisterUser bc rand newID now s login password
        = (.error (.validationErr msgPasswordComposition), s)) ∧
    (rules.valid login password →
      ∀ m, (uc.RegisterUser bc rand newID now s login password).1
        ≠ .error (.validationErr m)) := by
  have e1 : rules.loginLength login ↔ ¬ (login.utf8ByteSize < 3 ∨ login.utf8ByteSize > 50) := by
    unfold rules.loginLength
    omega
  have e3 : rules.passwordLength password
      ↔ ¬ (password.utf8ByteSize < 8 ∨ password.utf8ByteSize > 100) := by
    unfold rules.passwordLength
    omega
  refine ⟨?_, ?_, ?_, ?_, ?_⟩
  · intro h1
    have h1b : login.utf8ByteSize < 3 ∨ login.utf8ByteSize > 50 := by
      by_contra hc
      exact h1 (e1.mpr hc)
    unfold AuthUseCase.RegisterUser
    rw [if_pos h1b]
  · intro h1 h2
    have v2 : isValidLogin login = false := by
      cases hb : isValidLogin login
      · rfl
      · exact absurd ((isValidLogin_iff login).mp hb) h2
    unfold AuthUseCase.RegisterUser
    rw [if_neg (e1.mp h1)]
    simp [v2]
  · intro h1 h2 h3
    have v2 : isValidLogin login = true := (isValidLogin_iff login).mpr h2
    have h3b : password.utf8ByteSize < 8 ∨ password.utf8ByteSize > 100 := by
      by_contra hc
      exact h3 (e3.mpr hc)
    unfold AuthUseCase.RegisterUser
    rw [if_neg (e1.mp h1)]
    simp only [v2, Bool.not_true, Bool.false_eq_true, if_false, if_pos h3b]
  · intro h1 h2 h3 h4
    have v2 : isValidLogin login = true := (isValidLogin_iff login).mpr h2
    have v4 : isValidPassword password = false := by
      cases hb : isValidPassword password
      · rfl
      · exact absurd ((isValidPassword_iff password).mp hb) h4
    unfold AuthUseCase.RegisterUser
    rw [if_neg (e1.mp h1)]
    simp only [v2, v4, Bool.not_true, Bool.not_false, Bool.false_eq_true, if_false,
      if_neg (e3.mp h3), if_true]
  · rintro ⟨h1, h2, h3, h4⟩ m
    have v2 : isValidLogin login = true := (isValidLogin_iff login).mpr h2
    have v4 : isValidPassword password = true := (isValidPassword_iff password).mpr h4
    unfold AuthUseCase.RegisterUser
    rw [if_neg (e1.mp h1)]
    simp only [v2, v4, Bool.not_true, Bool.false_eq_true, if_false, if_neg (e3.mp h3)]
    cases uc.userRepo.GetUserByLogin s login with
    | error err => simp
    | ok found =>
      cases found with
      | some u => simp [ErrUserAlreadyExists]
      | none =>
        simp only []
        cases hh : util.HashPassword bc rand password with
        | mk hashed herr =>
          cases herr with
          | some err => simp
          | none =>
            simp only []
            cases hc : uc.userRepo.CreateUser s ⟨newID, login, hashed, now⟩ with
            | mk cerr s2 =>
              cases cerr with
              | some err => simp
              | none => simp

theorem RegisterUser_validation_order_sample :
    sampleAuth.RegisterUser sampleBcrypt (ascii "salt") (ascii "id-1") sampleNow [] "ab" "Abcdef1!"
        = (.error (.validationErr msgLoginLength), []) ∧
      ∀ m, (sampleAuth.RegisterUser sampleBcrypt (ascii "salt") (ascii "id-1") sampleNow []
        "valid_user-1" "Abcdef1!").1 ≠ .error (.validationErr m) :=
  ⟨(RegisterUser_validation_order sampleAuth sampleBcrypt (ascii "salt") (ascii "id-1") sampleNow []
      "ab" "Abcdef1!").1 (by decide),
    (RegisterUser_validation_order sampleAuth sampleBcrypt (ascii "salt") (ascii "id-1") sampleNow []
      "valid_user-1" "Abcdef1!").2.2.2.2 (by decide)⟩

/-- C7: for every login, password and user store, `AuthenticateUser` with a
login the store does not know, and `AuthenticateUser` with a known login and a
password that does not verify against the stored hash, both return the empty
token and the same error value `ErrInvalidCredentials`. -/
theorem c7_invalid_credentials_undifferentiated {σ : Type} (uc : AuthUseCase σ) (bc : Bcrypt)
    (now : Time) (s : σ) (login password : String) :
    (uc.userRepo.GetUserByLogin s login = .ok none →
      uc.AuthenticateUser bc now s login password = ([], some ErrInvalidCredentials)) ∧
    (∀ user, uc.userRepo.GetUserByLogin s login = .ok (some user) →
      util.CheckPasswordHash bc password user.PasswordHash = false →
      uc.AuthenticateUser bc now s login password = ([], some ErrInvalidCredentials)) := by
  constructor
  · intro h
    unfold AuthUseCase.AuthenticateUser
    rw [h]
  · intro user h hck
    unfold AuthUseCase.AuthenticateUser
    rw [h]
    simp [hck]

theorem c7_invalid_credentials_undifferentiated_witness :
    sampleAuth.AuthenticateUser sampleBcrypt sampleNow
        [⟨ascii "id-1", "valid_user-1", "salt$Abcdef1!", sampleNow⟩] "nobody" "Abcdef1!"
      = ([], some ErrInvalidCredentials) ∧
    sampleAuth.AuthenticateUser sampleBcrypt sampleNow
        [⟨ascii "id-1", "valid_user-1", "salt$Abcdef1!", sampleNow⟩] "valid_user-1" "Wrong_pw1!"
      = ([], some ErrInvalidCredentials) :=
  ⟨(c7_invalid_credentials_undifferentiated sampleAuth sampleBcrypt sampleNow
      [⟨ascii "id-1", "valid_user-1", "salt$Abcdef1!", sampleNow⟩] "nobody" "Abcdef1!").1 rfl,
    (c7_invalid_credentials_undifferentiated sampleAuth sampleBcrypt sampleNow
      [⟨ascii "id-1", "valid_user-1", "salt$Abcdef1!", sampleNow⟩] "valid_user-1"
      "Wrong_pw1!").2 ⟨ascii "id-1", "valid_user-1", "salt$Abcdef1!", sampleNow⟩ rfl rfl⟩

/-- C5 (what the code does): for every (login, password) pair that satisfies
the four registration rules and whose password is longer than 72 bytes (rule 3
admits up to 100), from a store that holds no user with that login,
`RegisterUser` does not succeed: bcrypt refuses the password, and the result
is the hashing error wrapped as an internal failure, with nothing persisted
and status 500 at the handler. No user exists to authenticate afterwards. -/
theorem c5_long_valid_password_not_registered {σ : Type} (uc : AuthUseCase σ) (inner : Bcrypt)
    (rand newID : Bytes) (now : Time) (s : σ) (login password : String)
    (hvalid : rules.valid login password)
    (hlong : 72 < password.utf8ByteSize)
    (hfree : uc.userRepo.GetUserByLogin s login = .ok none) :
    uc.RegisterUser (bcryptWithLengthCheck inner) rand newID now s login password
        = (.error (.wrap "не удалось хешировать пароль" ErrPasswordTooLong), s) ∧
      handler.RegisterUserStatus
          (uc.RegisterUser (bcryptWithLengthCheck inner) rand newID now s login password).1
        = 500 := by
  obtain ⟨hl1, hl2, hp1, hp2⟩ := hvalid
  have v1 : ¬ (login.utf8ByteSize < 3 ∨ login.utf8ByteSize > 50) := by
    unfold rules.loginLength at hl1
    omega
  have v2 : isValidLogin login = true := (isValidLogin_iff login).mpr hl2
  have v3 : ¬ (password.utf8ByteSize < 8 ∨ password.utf8ByteSize > 100) := by
    unfold rules.passwordLength at hp1
    omega
  have v4 : isValidPassword password = true := (isValidPassword_iff password).mpr hp2
  have hgen : (bcryptWithLengthCheck inner).GenerateFromPassword rand password bcryptDefaultCost
      = .error ErrPasswordTooLong := by
    simp only [bcryptWithLengthCheck]
    rw [if_pos (by omega)]
  have hreg : uc.RegisterUser (bcryptWithLengthCheck inner) rand newID now s login password
      = (.error (.wrap "не удалось хешировать пароль" ErrPasswordTooLong), s) := by
    unfold AuthUseCase.RegisterUser
    rw [if_neg v1]
    simp only [v2, v4, Bool.not_true, Bool.false_eq_true, if_false, if_neg v3, hfree,
      util.HashPassword, hgen]
  refine ⟨hreg, ?_⟩
  rw [hreg]
  rfl

set_option maxRecDepth 100000 in
theorem c5_long_valid_password_not_registered_witness :
    rules.valid "valid_user-1" samplePassword73 ∧
      sampleAuth.RegisterUser (bcryptWithLengthCheck sampleBcrypt) (ascii "salt") (ascii "id-1")
          sampleNow [] "valid_user-1" samplePassword73
        = (.error (.wrap "не удалось хешировать пароль" ErrPasswordTooLong), []) ∧
      handler.RegisterUserStatus
          (sampleAuth.RegisterUser (bcryptWithLengthCheck sampleBcrypt) (ascii "salt")
            (ascii "id-1") sampleNow [] "valid_user-1" samplePassword73).1
        = 500 :=
  ⟨by decide,
    c5_long_valid_password_not_registered sampleAuth sampleBcrypt (ascii "salt") (ascii "id-1")
      sampleNow [] "valid_user-1" samplePassword73 (by decide) (by decide) rfl⟩

/-- C6 (what the code does): the two length rules are tested on `len`, the
bytes of the string, not on its characters. For every store and hasher, the
login `яя` (2 characters, 4 bytes) passes the length test and is rejected with
the character-set message, not the length message; and the password `Aa1!яя`
(6 characters, 8 bytes) passes the length test and the composition test, so
`RegisterUser` returns no `ValidationErr` for it, and over the sample store
the user is registered. -/
theorem c6_length_rules_count_bytes {σ : Type} (uc : AuthUseCase σ) (bc : Bcrypt)
    (rand newID : Bytes) (now : Time) (s : σ) :
    ("яя".length = 2 ∧
      uc.RegisterUser bc rand newID now s "яя" "Abcdef1!"
        = (.error (.validationErr msgLoginChars), s)) ∧
    ("Aa1!яя".length = 6 ∧
      (∀ m, (uc.RegisterUser bc rand newID now s "valid_user-1" "Aa1!яя").1
        ≠ .error (.validationErr m)) ∧
      sampleAuth.RegisterUser sampleBcrypt (ascii "salt") (ascii "id-1") sampleNow []
          "valid_user-1" "Aa1!яя"
        = (.ok ⟨ascii "id-1", "valid_user-1", "salt$Aa1!яя", sampleNow⟩,
            [⟨ascii "id-1", "valid_user-1", "salt$Aa1!яя", sampleNow⟩])) := by
  refine ⟨⟨by decide, ?_⟩, by decide, ?_, rfl⟩
  · exact (RegisterUser_validation_order uc bc rand newID now s "яя" "Abcdef1!").2.1
      (by decide) (by decide)
  · exact (RegisterUser_validation_order uc bc rand newID now s "valid_user-1" "Aa1!яя").2.2.2.2
      (by decide)

end usecase

namespace usecase

/-- C8 (what the code does): for every valid (login, password), when the
lookup reports no user with that login and the hasher succeeds but
`CreateUser` then fails with an error `err` that is not `ErrUserAlreadyExists`
(such as the wrapped unique violation of the driver), `RegisterUser` returns
`err` wrapped in the generic "could not create user" error, which is not
`ErrUserAlreadyExists` for `errors.Is`; the handler answers 500, not 409. -/
theorem c8_constraint_violation_not_mapped {σ : Type} (uc : AuthUseCase σ) (bc : Bcrypt)
    (rand newID : Bytes) (now : Time) (s s2 : σ) (login password hash : String) (err : Error)
    (hvalid : rules.valid login password)
    (hfree : uc.userRepo.GetUserByLogin s login = .ok none)
    (hhash : bc.GenerateFromPassword rand password bcryptDefaultCost = .ok hash)
    (hdup : uc.userRepo.CreateUser s ⟨newID, login, hash, now⟩ = (some err, s2))
    (hnot : errorsIs err ErrUserAlreadyExists = false) :
    uc.RegisterUser bc rand newID now s login password
        = (.error (.wrap "не удалось создать пользователя" err), s2) ∧
      errorsIs (.wrap "не удалось создать пользователя" err) ErrUserAlreadyExists = false ∧
      (errorsAsValidationErr err = none →
        handler.RegisterUserStatus (uc.RegisterUser bc rand newID now s login password).1
          = 500) := by
  obtain ⟨hl1, hl2, hp1, hp2⟩ := hvalid
  have v1 : ¬ (login.utf8ByteSize < 3 ∨ login.utf8ByteSize > 50) := by
    unfold rules.loginLength at hl1
    omega
  have v2 : isValidLogin login = true := (isValidLogin_iff login).mpr hl2
  have v3 : ¬ (password.utf8ByteSize < 8 ∨ password.utf8ByteSize > 100) := by
    unfold rules.passwordLength at hp1
    omega
  have v4 : isValidPassword password = true := (isValidPassword_iff password).mpr hp2
  have hreg : uc.RegisterUser bc rand newID now s login password
      = (.error (.wrap "не удалось создать пользователя" err), s2) := by
    unfold AuthUseCase.RegisterUser
    rw [if_neg v1]
    simp only [v2, v4, Bool.not_true, Bool.false_eq_true, if_false, if_neg v3, hfree,
      util.HashPassword, hhash, hdup]
  have his : errorsIs (.wrap "не удалось создать пользователя" err) ErrUserAlreadyExists
      = false := by
    have hne : Error.wrap "не удалось создать пользователя" err ≠ ErrUserAlreadyExists := by
      intro h
      cases h
    rw [errorsIs, if_neg hne, hnot]
  refine ⟨hreg, his, ?_⟩
  intro has
  rw [hreg]
  simp [handler.RegisterUserStatus, errorsAsValidationErr, has, his]

theorem c8_constraint_violation_not_mapped_witness :
    sampleRacingAuth.RegisterUser sampleBcrypt (ascii "salt") (ascii "id-2") sampleNow
        ([], [⟨ascii "id-1", "valid_user-1", "salt$Abcdef1!", sampleNow⟩])
        "valid_user-1" "Abcdef1!"
      = (.error (.wrap "не удалось создать пользователя"
            (.wrap "failed to create user in postgres"
              (.driver "23505" "duplicate key value violates unique constraint"))),
          ([⟨ascii "id-1", "valid_user-1", "salt$Abcdef1!", sampleNow⟩], [])) ∧
      errorsIs (.wrap "не удалось создать пользователя"
            (.wrap "failed to create user in postgres"
              (.driver "23505" "duplicate key value violates unique constraint")))
          ErrUserAlreadyExists = false ∧
      handler.RegisterUserStatus
          (sampleRacingAuth.RegisterUser sampleBcrypt (ascii "salt") (ascii "id-2") sampleNow
            ([], [⟨ascii "id-1", "valid_user-1", "salt$Abcdef1!", sampleNow⟩])
            "valid_user-1" "Abcdef1!").1 = 500 :=
  have h := c8_constraint_violation_not_mapped sampleRacingAuth sampleBcrypt (ascii "salt")
    (ascii "id-2") sampleNow ([], [⟨ascii "id-1", "valid_user-1", "salt$Abcdef1!", sampleNow⟩])
    ([⟨ascii "id-1", "valid_user-1", "salt$Abcdef1!", sampleNow⟩], [])
    "valid_user-1" "Abcdef1!" "salt$Abcdef1!"
    (.wrap "failed to create user in postgres"
      (.driver "23505" "duplicate key value violates unique constraint"))
    (by decide) rfl rfl rfl rfl
  ⟨h.1, h.2.1, h.2.2 rfl⟩

/-- C10 (what the code does): for every input to `CreateAd` in which the title
is empty, the title is longer than 255 characters, the price is not greater
than 0 (`price <= 0`), or the description is longer than 1000 characters,
`CreateAd` fails and performs no store operation, but the error is a plain
`errors.New` value and no `ValidationErr`: `errors.As` finds none and the
handler answers 500, not 400. -/
theorem c10_invalid_ad_error_is_not_ValidationErr {σ : Type} (uc : AdUseCase σ) (newID : Bytes)
    (now : Time) (s : σ) (userID : Bytes) (title description imageURL : String)
    (price : Float64)
    (hbad : title = "" ∨ title.length > 255 ∨ price.le (.finite 0) = true
      ∨ description.length > 1000) :
    ∃ msg, uc.CreateAd newID now s userID title description imageURL price
        = (.error (.new msg), s) ∧
      errorsAsValidationErr (.new msg) = none ∧
      handler.CreateAdStatus (uc.CreateAd newID now s userID title description imageURL price).1
        = 500 := by
  have ht := length_le_utf8ByteSize title
  have hd := length_le_utf8ByteSize description
  unfold AdUseCase.CreateAd
  by_cases c1 : title = "" ∨ price.le (.finite 0) = true
  · rw [if_pos c1]
    exact ⟨_, rfl, rfl, rfl⟩
  · rw [if_neg c1]
    by_cases c2 : title.utf8ByteSize > 255
    · rw [if_pos c2]
      exact ⟨_, rfl, rfl, rfl⟩
    · rw [if_neg c2]
      have c3 : description.utf8ByteSize > 1000 := by
        rcases hbad with h | h | h | h
        · exact absurd (Or.inl h) c1
        · omega
        · exact absurd (Or.inr h) c1
        · omega
      rw [if_pos c3]
      exact ⟨_, rfl, rfl, rfl⟩

theorem c10_invalid_ad_error_is_not_ValidationErr_witness :
    (∃ msg, sampleAds.CreateAd (ascii "ad-1") sampleNow [] (ascii "id-1") "Bike" "" ""
          (.finite 0) = (.error (.new msg), []) ∧
      errorsAsValidationErr (.new msg) = none ∧
      handler.CreateAdStatus (sampleAds.CreateAd (ascii "ad-1") sampleNow [] (ascii "id-1")
        "Bike" "" "" (.finite 0)).1 = 500) ∧
    (∃ msg, sampleAds.CreateAd (ascii "ad-1") sampleNow [] (ascii "id-1")
          (String.mk (List.replicate 256 'a')) "" "" (.finite (999 / 100))
        = (.error (.new msg), []) ∧
      errorsAsValidationErr (.new msg) = none ∧
      handler.CreateAdStatus (sampleAds.CreateAd (ascii "ad-1") sampleNow [] (ascii "id-1")
        (String.mk (List.replicate 256 'a')) "" "" (.finite (999 / 100))).1 = 500) :=
  ⟨c10_invalid_ad_error_is_not_ValidationErr sampleAds (ascii "ad-1") sampleNow []
      (ascii "id-1") "Bike" "" "" (.finite 0) (Or.inr (Or.inr (Or.inl (by decide)))),
    c10_invalid_ad_error_is_not_ValidationErr sampleAds (ascii "ad-1") sampleNow []
      (ascii "id-1") (String.mk (List.replicate 256 'a')) "" "" (.finite (999 / 100))
      (Or.inr (Or.inl (by
        show (List.replicate 256 'a').length > 255
        rw [List.length_replicate]
        decide)))⟩

end usecase

/-! ## Ad service and query builders: claims C11 to C15 -/

namespace usecase

set_option maxRecDepth 100000 in
/-- C11, as stated, fails on a title of multi-byte characters: a title of 128
Cyrillic letters (128 characters, 256 bytes) with a positive price and a store
that accepts every ad is rejected as too long, and nothing reaches the store. -/
theorem c11_title_of_128_characters_rejected :
    (String.mk (List.replicate 128 'я')).length = 128 ∧
      Float64.lt (.finite 0) (.finite 100) = true ∧
      sampleAds.CreateAd (ascii "ad-1") sampleNow [] (ascii "id-1")
          (String.mk (List.replicate 128 'я')) "" "" (.finite 100)
        = (.error (.new "title is too long"), []) := by
  refine ⟨?_, by decide, rfl⟩
  show (List.replicate 128 'я').length = 128
  rw [List.length_replicate]

/-- C11 (amended): for every title of 1 to 255 bytes, every description of at
most 1000 bytes (the lengths being `len`), every price greater than 0, every
userID and imageURL, and a store whose `CreateAd` succeeds on the new ad,
`CreateAd` succeeds and returns an Ad whose UserID, Title, Description,
ImageURL and Price are the inputs (with the new ID and the clock reading), the
store being left as one call of its `CreateAd` with that same Ad leaves it. -/
theorem c11_create_ad_succeeds {σ : Type} (uc : AdUseCase σ) (newID : Bytes) (now : Time)
    (s : σ) (userID : Bytes) (title description imageURL : String) (price : Float64)
    (htitle : 1 ≤ title.utf8ByteSize ∧ title.utf8ByteSize ≤ 255)
    (hdesc : description.utf8ByteSize ≤ 1000)
    (hprice : Float64.lt (.finite 0) price = true)
    (hstore : (uc.adRepo.CreateAd s
      ⟨newID, userID, title, description, imageURL, price, now⟩).1 = none) :
    uc.CreateAd newID now s userID title description imageURL price
      = (.ok ⟨newID, userID, title, description, imageURL, price, now⟩,
          (uc.adRepo.CreateAd s ⟨newID, userID, title, description, imageURL, price, now⟩).2) := by
  have h1 : ¬ (title = "" ∨ price.le (.finite 0) = true) := by
    rintro (h | h)
    · exact utf8ByteSize_ne_empty title htitle.1 h
    · rw [Float64.le_zero_of_pos price hprice] at h
      cases h
  have h2 : ¬ title.utf8ByteSize > 255 := by omega
  have h3 : ¬ description.utf8ByteSize > 1000 := by omega
  unfold AdUseCase.CreateAd
  rw [if_neg h1, if_neg h2, if_neg h3]
  have hc : uc.adRepo.CreateAd s ⟨newID, userID, title, description, imageURL, price, now⟩
      = (none, (uc.adRepo.CreateAd s
          ⟨newID, userID, title, description, imageURL, price, now⟩).2) :=
    Prod.ext hstore rfl
  simp only []
  rw [hc]

theorem c11_create_ad_succeeds_witness :
    sampleAds.CreateAd (ascii "ad-1") sampleNow [] (ascii "id-1") "Bike" "Red, 26 inch"
        "https://example.com/bike.png" (.finite (999 / 100))
      = (.ok ⟨ascii "ad-1", ascii "id-1", "Bike", "Red, 26 inch",
            "https://example.com/bike.png", .finite (999 / 100), sampleNow⟩,
          [⟨ascii "ad-1", ascii "id-1", "Bike", "Red, 26 inch",
            "https://example.com/bike.png", .finite (999 / 100), sampleNow⟩]) :=
  c11_create_ad_succeeds sampleAds (ascii "ad-1") sampleNow [] (ascii "id-1") "Bike"
    "Red, 26 inch" "https://example.com/bike.png" (.finite (999 / 100))
    (by decide) (by decide) (by simp [Float64.lt]) rfl

/-- C12 (what the code does): the request `page=9223372036854775807&limit=10`
passes both normalisations unchanged, and the offset `(page - 1) * limit`,
computed in 64-bit `int` arithmetic, wraps to -20: `ListAds` queries the store
with a negative offset. The other parameters are passed through unchanged to
the page query and the prices to the count query. -/
theorem c12_offset_wraps_negative {σ : Type} (uc : AdUseCase σ) (s : σ)
    (sortBy sortOrder : Bytes) (minPrice maxPrice : Float64) :
    handler.GetAdsFeedParams (ascii "9223372036854775807") (ascii "10") sortBy sortOrder
        (some minPrice) (some maxPrice)
      = ⟨9223372036854775807, 10, sortBy, sortOrder, minPrice, maxPrice⟩ ∧
    (⟨9223372036854775807, 10, sortBy, sortOrder, minPrice, maxPrice⟩
      : ListAdsParameters).offset = -20 ∧
    uc.ListAds s ⟨9223372036854775807, 10, sortBy, sortOrder, minPrice, maxPrice⟩
      = (match uc.adRepo.ListAds s (-20) 10 sortBy sortOrder minPrice maxPrice with
        | .error err => .error (.wrap "failed to list ads" err)
        | .ok ads =>
          match uc.adRepo.CountAds s minPrice maxPrice with
          | .error err => .error (.wrap "failed to count ads" err)
          | .ok totalCount => .ok (ads, totalCount)) := by
  have hp : ParseInt (ascii "9223372036854775807") = some 9223372036854775807 := by decide
  have hl : ParseInt (ascii "10") = some 10 := by decide
  refine ⟨?_, ?_, rfl⟩
  · simp only [handler.GetAdsFeedParams, hp, hl, Option.getD_some]
    rfl
  · simp only [ListAdsParameters.offset, ListAdsParameters.page, ListAdsParameters.limit]
    decide

end usecase

namespace postgres

/-- C13 (what the code does): the `ORDER BY` clause of `PGAdRepository.ListAds`
is the text for `sortBy` (`created_at`, `price`, or the default
`created_at DESC` for an empty or unrecognized value) followed by the text for
`sortOrder` (nothing when it is empty). So an empty or unrecognized `sortBy`
with a non-empty `sortOrder` names two directions, and a recognized `sortBy`
with an empty `sortOrder` names none; only the other combinations name one
column and one direction. -/
theorem c13_order_by_clause (mapUpper : Bytes → Bytes) :
    PGAdRepository.orderByClause mapUpper [] (ascii "asc") = " ORDER BY created_at DESC ASC" ∧
    PGAdRepository.orderByClause mapUpper (ascii "title") (ascii "desc")
      = " ORDER BY created_at DESC DESC" ∧
    PGAdRepository.orderByClause mapUpper (ascii "price") [] = " ORDER BY price" ∧
    PGAdRepository.orderByClause mapUpper (ascii "created_at") [] = " ORDER BY created_at" ∧
    PGAdRepository.orderByClause mapUpper (ascii "price") (ascii "Asc") = " ORDER BY price ASC" ∧
    PGAdRepository.orderByClause mapUpper (ascii "price") (ascii "down")
      = " ORDER BY price DESC" ∧
    PGAdRepository.orderByClause mapUpper [] [] = " ORDER BY created_at DESC" := by
  refine ⟨?_, ?_, ?_, ?_, ?_, ?_, ?_⟩ <;> rfl

/-- C14: for every minPrice and maxPrice, the page query of
`PGAdRepository.ListAds` and the count query of `PGAdRepository.CountAds`
carry the same `WHERE` clause and the same filter arguments: `price >= $n`
bound to minPrice exactly when `minPrice > 0`, `price <= $n` bound to maxPrice
exactly when `maxPrice > 0` and `maxPrice >= minPrice`, joined by `AND`, and
no `WHERE` clause when neither holds. With minPrice 50 and maxPrice 20 both
queries carry `price >= $1` bound to 50 only. -/
theorem c14_page_and_count_share_filter :
    (∀ (mapUpper : Bytes → Bytes) (offset limit : Int) (sortBy sortOrder : Bytes)
        (minPrice maxPrice : Float64),
      whereClause (PGAdRepository.ListAdsFilter minPrice maxPrice)
          = whereClause (PGAdRepository.CountAdsFilter minPrice maxPrice) ∧
        whereClause (PGAdRepository.CountAdsFilter minPrice maxPrice)
          = queryShape.whereText (decide (Float64.lt (.finite 0) minPrice = true))
              (decide (Float64.lt (.finite 0) maxPrice = true
                ∧ Float64.le minPrice maxPrice = true)) ∧
        (PGAdRepository.ListAdsFilter minPrice maxPrice).args
          = (PGAdRepository.CountAdsFilter minPrice maxPrice).args ∧
        (PGAdRepository.CountAdsFilter minPrice maxPrice).args
          = (if Float64.lt (.finite 0) minPrice = true then [.float minPrice] else [])
            ++ (if Float64.lt (.finite 0) maxPrice = true ∧ Float64.le minPrice maxPrice = true
              then [.float maxPrice] else []) ∧
        PGAdRepository.CountAdsQuery minPrice maxPrice
          = ("SELECT COUNT(*) FROM ads "
              ++ whereClause (PGAdRepository.CountAdsFilter minPrice maxPrice),
            (PGAdRepository.CountAdsFilter minPrice maxPrice).args) ∧
        PGAdRepository.ListAdsQuery mapUpper offset limit sortBy sortOrder minPrice maxPrice
          = ("\n\t\tSELECT id, user_id, title, description, image_url, price, created_at\n\t\tFROM ads\n\t\t"
              ++ whereClause (PGAdRepository.ListAdsFilter minPrice maxPrice) ++ "\n\t\t"
              ++ PGAdRepository.orderByClause mapUpper sortBy sortOrder
              ++ placeholder "\n\t\tOFFSET "
                  (PGAdRepository.ListAdsFilter minPrice maxPrice).argCounter
              ++ placeholder " LIMIT "
                  ((PGAdRepository.ListAdsFilter minPrice maxPrice).argCounter + 1),
            (PGAdRepository.ListAdsFilter minPrice maxPrice).args
              ++ [.int offset, .int limit])) ∧
    whereClause (PGAdRepository.ListAdsFilter (.finite 50) (.finite 20)) = " WHERE price >= $1" ∧
    (PGAdRepository.ListAdsFilter (.finite 50) (.finite 20)).args = [.float (.finite 50)] ∧
    PGAdRepository.CountAdsQuery (.finite 50) (.finite 20)
      = ("SELECT COUNT(*) FROM ads  WHERE price >= $1", [.float (.finite 50)]) := by
  have hfilter : ∀ minPrice maxPrice : Float64,
      PGAdRepository.ListAdsFilter minPrice maxPrice
        = PGAdRepository.CountAdsFilter minPrice maxPrice := fun _ _ => rfl
  have h50 : Float64.lt (.finite 0) (.finite 50) = true := by simp [Float64.lt]
  have h20 : Float64.le (.finite 50) (.finite 20) = false := by
    simp only [Float64.le, decide_eq_false_iff_not, not_le]
    norm_num
  refine ⟨?_, ?_, ?_, ?_⟩
  · intro mapUpper offset limit sortBy sortOrder minPrice maxPrice
    obtain ⟨e1, e2, _⟩ := ListAdsFilter_eq minPrice maxPrice
    refine ⟨by rw [hfilter], ?_, by rw [hfilter], ?_, rfl, rfl⟩
    · rw [← hfilter, e1]
      simp only [queryShape.minActive, queryShape.maxActive, Bool.decide_eq_true,
        Bool.decide_and]
    · rw [← hfilter, e2]
      simp only [queryShape.filterArgs, queryShape.minActive, queryShape.maxActive,
        Bool.and_eq_true]
  · simp only [PGAdRepository.ListAdsFilter, h50, h20, Bool.and_false, Bool.false_eq_true,
      if_false, if_true]
    rfl
  · simp only [PGAdRepository.ListAdsFilter, h50, h20, Bool.and_false, Bool.false_eq_true,
      if_false, if_true]
    rfl
  · simp only [PGAdRepository.CountAdsQuery, PGAdRepository.CountAdsFilter, h50, h20,
      Bool.and_false, Bool.false_eq_true, if_false, if_true]
    rfl

/-- C15: for every input to `PGAdRepository.ListAds` the query text is one of
finitely many fixed texts, chosen by which predicates are active and by the
sort selection alone, with placeholders numbered from `$1`; it holds no
rendering of the caller's values, so two calls that activate the same
predicates and select the same sort produce the same text. The values travel
in the argument list only: the active filter values in placeholder order,
then offset, then limit, as many arguments as the text has placeholders. -/
theorem c15_query_is_parameterized (mapUpper : Bytes → Bytes) (offset limit : Int)
    (sortBy sortOrder : Bytes) (minPrice maxPrice : Float64) :
    (PGAdRepository.ListAdsQuery mapUpper offset limit sortBy sortOrder minPrice maxPrice).1
      = queryShape.queryText (queryShape.minActive minPrice)
          (queryShape.maxActive minPrice maxPrice) (queryShape.column sortBy)
          (queryShape.direction mapUpper sortOrder) ∧
    (PGAdRepository.ListAdsQuery mapUpper offset limit sortBy sortOrder minPrice maxPrice).2
      = queryShape.filterArgs minPrice maxPrice ++ [.int offset, .int limit] ∧
    queryShape.placeholders
        (PGAdRepository.ListAdsQuery mapUpper offset limit sortBy sortOrder minPrice maxPrice).1
      = (PGAdRepository.ListAdsQuery mapUpper offset limit sortBy sortOrder minPrice
          maxPrice).2.length ∧
    (∀ (offset2 limit2 : Int) (sortBy2 sortOrder2 : Bytes) (minPrice2 maxPrice2 : Float64),
      queryShape.minActive minPrice2 = queryShape.minActive minPrice →
      queryShape.maxActive minPrice2 maxPrice2 = queryShape.maxActive minPrice maxPrice →
      queryShape.column sortBy2 = queryShape.column sortBy →
      queryShape.direction mapUpper sortOrder2 = queryShape.direction mapUpper sortOrder →
      (PGAdRepository.ListAdsQuery mapUpper offset2 limit2 sortBy2 sortOrder2 minPrice2
          maxPrice2).1
        = (PGAdRepository.ListAdsQuery mapUpper offset limit sortBy sortOrder minPrice
          maxPrice).1) := by
  refine ⟨?_, ?_, ?_, ?_⟩
  · rw [ListAdsQuery_eq]
  · rw [ListAdsQuery_eq]
  · rw [ListAdsQuery_eq]
    simp only [queryShape.placeholders_queryText, List.length_append,
      queryShape.length_filterArgs, List.length_cons, List.length_nil]
  · intro offset2 limit2 sortBy2 sortOrder2 minPrice2 maxPrice2 h1 h2 h3 h4
    rw [ListAdsQuery_eq, ListAdsQuery_eq, h1, h2, h3, h4]

theorem c15_query_is_parameterized_witness :
    (PGAdRepository.ListAdsQuery id 20 5 (ascii "price") (ascii "ASC") (.finite 7) (.finite 3)).1
      = (PGAdRepository.ListAdsQuery id 0 10 (ascii "price") (ascii "asc") (.finite 50)
          (.finite 20)).1 :=
  (c15_query_is_parameterized id 0 10 (ascii "price") (ascii "asc") (.finite 50)
    (.finite 20)).2.2.2 20 5 (ascii "price") (ascii "ASC") (.finite 7) (.finite 3)
    (by simp [queryShape.minActive, Float64.lt])
    (by
      simp only [queryShape.maxActive, Float64.lt, Float64.le]
      norm_num)
    rfl (by decide)

end postgres

/-! ## Token codec: claim C16 -/

namespace util

/-- C16, as stated, fails on the spelling of the expiry: the text
`u1.+1700086400.sig`, with the signature of `u1` and 1700086400, is accepted
and returns `u1`, although it is not the text `GenerateToken` builds for that
userID and expiry; two different decoded texts are accepted for one
(userID, expiry, key). -/
theorem c16_noncanonical_expiry_accepted :
    base64Decode (base64Encode (ascii "u1.+1700086400."
        ++ signature (ascii "secret") (ascii "u1") 1700086400))
      = some (ascii "u1.+1700086400." ++ signature (ascii "secret") (ascii "u1") 1700086400) ∧
    ParseToken sampleNow (base64Encode (ascii "u1.+1700086400."
        ++ signature (ascii "secret") (ascii "u1") 1700086400)) (ascii "secret")
      = (ascii "u1", none) ∧
    ParseToken sampleNow (base64Encode (tokenText (ascii "u1") 1700086400
        (signature (ascii "secret") (ascii "u1") 1700086400))) (ascii "secret")
      = (ascii "u1", none) ∧
    ascii "u1.+1700086400." ++ signature (ascii "secret") (ascii "u1") 1700086400
      ≠ tokenText (ascii "u1") 1700086400
          (signature (ascii "secret") (ascii "u1") 1700086400) := by
  have hsplit : splitDot (ascii "u1.+1700086400."
      ++ signature (ascii "secret") (ascii "u1") 1700086400)
      = [ascii "u1", ascii "+1700086400", signature (ascii "secret") (ascii "u1") 1700086400] := by
    have e : ascii "u1.+1700086400." ++ signature (ascii "secret") (ascii "u1") 1700086400
        = ascii "u1" ++ byte 46 :: (ascii "+1700086400" ++ byte 46
            :: signature (ascii "secret") (ascii "u1") 1700086400) := by
      have : ascii "u1.+1700086400." = ascii "u1" ++ byte 46 :: (ascii "+1700086400" ++ [byte 46]) := by
        decide
      rw [this]
      simp
    rw [e, splitDot_append_dot _ _ (by decide), splitDot_append_dot _ _ (by decide),
      splitDot_of_not_mem _ (dot_not_mem_signature _ _ _)]
  refine ⟨base64Decode_encode _, ?_, ?_, ?_⟩
  · rw [ParseToken_of_split sampleNow _ (ascii "secret") _ _ _ _ 1700086400
      (base64Decode_encode _) hsplit (by decide), if_neg (by decide), if_neg (by simp)]
  · rw [ParseToken_tokenText _ _ _ _ _ (by decide) (by decide),
      if_neg (by simp [dot_not_mem_signature]; decide), if_neg (by decide), if_neg (by simp)]
  · intro h
    have hl := congrArg List.length h
    have h1 : (ascii "u1.+1700086400.").length = 15 := by decide
    have h2 : (ascii "u1").length = 2 := by decide
    have h3 : (formatInt 1700086400).length = 10 := by decide
    simp only [tokenText, List.length_append, h1, h2, h3, List.length_cons, List.length_nil]
      at hl
    omega

/-- C16 (amended): for every secret key and every token string that
`ParseToken` accepts, returning userID, the decoded token text is exactly
userID, ".", an expiry field, ".", and the signature `GenerateToken` computes
for that userID and the integer the expiry field reads as (not yet past) under
that key. The userID and signature fields are thus fixed by (userID, expiry,
key); the expiry field is any spelling `ParseInt` reads as that integer. -/
theorem c16_accepted_token_form (now : Time) (tokenString secretKey : Bytes)
    (hacc : (ParseToken now tokenString secretKey).2 = none) :
    ∃ (decoded expiryStr : Bytes) (expiresAt : Int),
      base64Decode tokenString = some decoded ∧
      decoded = (ParseToken now tokenString secretKey).1 ++ byte 46 :: (expiryStr ++ byte 46
        :: signature secretKey (ParseToken now tokenString secretKey).1 expiresAt) ∧
      ParseInt expiryStr = some expiresAt ∧
      now.Unix ≤ expiresAt := by
  cases hdec : base64Decode tokenString with
  | none =>
    unfold ParseToken at hacc
    rw [hdec] at hacc
    simp at hacc
  | some decoded =>
    by_cases hlen : (splitDot decoded).length = 3
    · obtain ⟨u, es, sg, hsplit⟩ : ∃ u es sg, splitDot decoded = [u, es, sg] := by
        match hs : splitDot decoded, hlen with
        | [u, es, sg], _ => exact ⟨u, es, sg, rfl⟩
      cases hint : ParseInt es with
      | none =>
        unfold ParseToken at hacc
        rw [hdec] at hacc
        simp [hsplit, hint] at hacc
      | some e =>
        have hp := ParseToken_of_split now tokenString secretKey decoded u es sg e hdec
          hsplit hint
        by_cases hexp : now.Unix > e
        · rw [hp, if_pos hexp] at hacc
          simp at hacc
        · by_cases hsig : sg ≠ signature secretKey u e
          · rw [hp, if_neg hexp, if_pos hsig] at hacc
            simp at hacc
          · rw [if_neg hexp, if_neg hsig] at hp
            have hsg : sg = signature secretKey u e := by
              by_contra hc
              exact hsig hc
            refine ⟨decoded, es, e, rfl, ?_, hint, by omega⟩
            rw [hp]
            simp only []
            rw [← hsg]
            exact splitDot_three decoded u es sg hsplit
    · rw [ParseToken_of_length_ne now tokenString secretKey decoded hdec hlen] at hacc
      simp at hacc

theorem c16_accepted_token_form_witness :
    ∃ (decoded expiryStr : Bytes) (expiresAt : Int),
      base64Decode (GenerateToken sampleNow (ascii "u1") (ascii "secret") oneDay).1
        = some decoded ∧
      decoded = (ParseToken sampleNow (GenerateToken sampleNow (ascii "u1") (ascii "secret")
          oneDay).1 (ascii "secret")).1 ++ byte 46 :: (expiryStr ++ byte 46
        :: signature (ascii "secret") (ParseToken sampleNow (GenerateToken sampleNow (ascii "u1")
          (ascii "secret") oneDay).1 (ascii "secret")).1 expiresAt) ∧
      ParseInt expiryStr = some expiresAt ∧
      sampleNow.Unix ≤ expiresAt :=
  c16_accepted_token_form sampleNow (GenerateToken sampleNow (ascii "u1") (ascii "secret")
    oneDay).1 (ascii "secret")
    (by rw [ParseToken_GenerateToken, if_neg (by decide), if_neg (by decide), if_neg (by simp)])

end util

end VKMarket
